import Mathlib

/-!
Shallow embedding of the eMule/eD2k client-server TCP message codec
(`protocol/ed2k/message_c2s_tcp.go`) together with the Header, Tag and
FileEntry codecs it relies on.  Bytes are modelled as natural numbers,
buffers as `List Nat`; multi-byte integers are little-endian.  The
receiver-mutating Go `Decode` methods are modelled as functions taking
the receiver value and returning the updated receiver together with an
optional error, which makes the mutation behaviour on failure explicit.
-/

namespace ed2k

/-- Error kinds of the codec (`ErrShortBuffer`, `ErrWrongMessageType`,
`ErrUnknownTagType`, `ErrInvalidLength` in the source). -/
inductive Err where
  | ShortBuffer
  | WrongMessageType
  | UnknownTagType
  | InvalidLength
deriving DecidableEq, Repr

/-- Value of a little-endian byte list (least significant byte first). -/
def leVal : List Nat → Nat
  | [] => 0
  | b :: bs => b + 256 * leVal bs

/-- Little-endian encoding of a 16-bit unsigned integer. -/
def u16le (n : Nat) : List Nat := [n % 256, n / 256 % 256]

/-- Little-endian encoding of a 32-bit unsigned integer. -/
def u32le (n : Nat) : List Nat :=
  [n % 256, n / 256 % 256, n / 65536 % 256, n / 16777216 % 256]

/-- Little-endian encoding of a 64-bit unsigned integer. -/
def u64le (n : Nat) : List Nat :=
  [n % 256, n / 256 % 256, n / 65536 % 256, n / 16777216 % 256,
   n / 4294967296 % 256, n / 1099511627776 % 256,
   n / 281474976710656 % 256, n / 72057594037927936 % 256]

/-- `slice data pos n` models the Go slice expression `data[pos : pos+n]`. -/
def slice (data : List Nat) (pos n : Nat) : List Nat := (data.drop pos).take n

/-- Models `binary.LittleEndian.PutUint32(data[1:5], n)`: patch the four
bytes at offsets 1..5 of `data` with the little-endian encoding of `n`. -/
def putU32At (data : List Nat) (n : Nat) : List Nat :=
  data.take 1 ++ u32le n ++ data.drop 5

/-- `HeaderLength` constant of the source: the header is 5 bytes. -/
def HeaderLength : Nat := 5

/-- Modelled from the spec: the fixed, protocol-assigned 1-byte message
type discriminants.  The spec fixes only that each variant has its own
constant; the concrete values here are the conventional eD2k opcodes and
only their distinctness matters below. -/
def MessageLoginRequest : Nat := 1

/-- Modelled from the spec: discriminant of ServerMessage. -/
def MessageServerMessage : Nat := 56

/-- Modelled from the spec: discriminant of IDChangeMessage. -/
def MessageIDChange : Nat := 64

/-- Modelled from the spec: discriminant of OfferFilesMessage. -/
def MessageOfferFiles : Nat := 21

/-- Modelled from the spec: discriminant of GetServerListMessage. -/
def MessageGetServerList : Nat := 20

/-- Modelled from the spec: discriminant of ServerListMessage. -/
def MessageServerList : Nat := 50

/-- Modelled from the spec: discriminant of ServerStatusMessage. -/
def MessageServerStatus : Nat := 52

/-- Modelled from the spec: discriminant of ServerIdentMessage. -/
def MessageServerIdent : Nat := 65

/-- Modelled from the spec (§3, §4.1): the fixed 5-byte message header,
`{ protocolMarker: byte, payloadLength: uint32 }`. -/
structure Header where
  protocol : Nat
  size : Nat
deriving DecidableEq, Repr

/-- Modelled from the spec (§4.1): `Header.WriteTo` emits the marker byte
followed by the little-endian payload length; it never fails.  The length
written here is a placeholder that the message encoders patch afterwards. -/
def Header.WriteTo (h : Header) : List Nat := h.protocol :: u32le h.size

/-- Modelled from the spec (§4.1): `Header.Decode` parses the first 5
bytes, failing with `ShortBuffer` when fewer than 5 bytes are available. -/
def Header.Decode (data : List Nat) : Except Err Header :=
  if data.length < 5 then .error .ShortBuffer
  else .ok ⟨data.getD 0 0, leVal (slice data 1 4)⟩

/-- Modelled from the spec (§3, §4.2): a tag key is either a short
numeric code (one reserved byte) or an arbitrary string. -/
inductive TagKey where
  | code (c : Nat)
  | name (s : List Nat)
deriving DecidableEq, Repr

/-- Modelled from the spec (§3, §4.2): a tag value is one of seven
variants.  The float variant keeps its four raw IEEE-754 bytes opaque. -/
inductive TagValue where
  | u8 (n : Nat)
  | u16 (n : Nat)
  | u32 (n : Nat)
  | u64 (n : Nat)
  | f32 (b : List Nat)
  | str (s : List Nat)
  | blob (b : List Nat)
deriving DecidableEq, Repr

/-- Modelled from the spec (§3): a tag is a key/typed-value pair. -/
structure Tag where
  key : TagKey
  val : TagValue
deriving DecidableEq, Repr

/-- Modelled from the spec (§4.2): the value-variant bits of the leading
type byte.  The spec fixes only that each variant has its own code and
that the codes leave room for the key-form bit; 1..7 are used here. -/
def TagValue.vcode : TagValue → Nat
  | .u8 _ => 1
  | .u16 _ => 2
  | .u32 _ => 3
  | .u64 _ => 4
  | .f32 _ => 5
  | .str _ => 6
  | .blob _ => 7

/-- Modelled from the spec (§4.2): value payload bytes — fixed width for
the numeric/float variants, a `uint16` length prefix for string/blob. -/
def TagValue.bytes : TagValue → List Nat
  | .u8 n => [n]
  | .u16 n => u16le n
  | .u32 n => u32le n
  | .u64 n => u64le n
  | .f32 b => b
  | .str s => u16le s.length ++ s
  | .blob b => u16le b.length ++ b

/-- Modelled from the spec (§4.2): `writeTag` emits the type-and-key-form
byte (value-variant bits, plus 128 when the key is the short numeric
form), then the key, then the value payload. -/
def Tag.WriteTo (t : Tag) : List Nat :=
  match t.key with
  | .code c => (t.val.vcode + 128) :: c :: t.val.bytes
  | .name s => t.val.vcode :: (u16le s.length ++ s ++ t.val.bytes)

/-- Modelled from the spec (§4.2): read the tag key according to the
key-form bit of the type byte `tb`: one reserved byte, or a `uint16`
length-prefixed string, failing with `ShortBuffer` on exhaustion. -/
def readTagKey (tb : Nat) (r1 : List Nat) : Except Err (TagKey × List Nat) :=
  if 128 ≤ tb then
    match r1 with
    | [] => .error .ShortBuffer
    | c :: r2 => .ok (.code c, r2)
  else if r1.length < 2 then .error .ShortBuffer
  else
    let n := leVal (r1.take 2)
    let r2 := r1.drop 2
    if r2.length < n then .error .ShortBuffer
    else .ok (.name (r2.take n), r2.drop n)

/-- Modelled from the spec (§4.2): read the tag value according to the
value-variant bits `vc`; fixed width for numeric/float variants, `uint16`
length-prefixed for string/blob; `ShortBuffer` when the reader is
exhausted before the declared width, `UnknownTagType` when `vc` matches
no variant. -/
def readTagValue (vc : Nat) (r2 : List Nat) : Except Err (TagValue × List Nat) :=
  match vc with
  | 1 => if r2.length < 1 then .error .ShortBuffer
         else .ok (.u8 (r2.getD 0 0), r2.drop 1)
  | 2 => if r2.length < 2 then .error .ShortBuffer
         else .ok (.u16 (leVal (r2.take 2)), r2.drop 2)
  | 3 => if r2.length < 4 then .error .ShortBuffer
         else .ok (.u32 (leVal (r2.take 4)), r2.drop 4)
  | 4 => if r2.length < 8 then .error .ShortBuffer
         else .ok (.u64 (leVal (r2.take 8)), r2.drop 8)
  | 5 => if r2.length < 4 then .error .ShortBuffer
         else .ok (.f32 (r2.take 4), r2.drop 4)
  | 6 => if r2.length < 2 then .error .ShortBuffer
         else
           let n := leVal (r2.take 2)
           let r3 := r2.drop 2
           if r3.length < n then .error .ShortBuffer
           else .ok (.str (r3.take n), r3.drop n)
  | 7 => if r2.length < 2 then .error .ShortBuffer
         else
           let n := leVal (r2.take 2)
           let r3 := r2.drop 2
           if r3.length < n then .error .ShortBuffer
           else .ok (.blob (r3.take n), r3.drop n)
  | _ => .error .UnknownTagType

/-- Modelled from the spec (§4.2): `ReadTag` reads the type-and-key-form
byte, then the key, then the value, returning the tag and the remaining
input.  Any failure aborts with the propagated error. -/
def ReadTag (input : List Nat) : Except Err (Tag × List Nat) :=
  match input with
  | [] => .error .ShortBuffer
  | tb :: r1 =>
    match readTagKey tb r1 with
    | .error e => .error e
    | .ok (key, r2) =>
      match readTagValue (tb % 128) r2 with
      | .error e => .error e
      | .ok (v, r3) => .ok (⟨key, v⟩, r3)

/-- Well-formedness of a tag key: a short code fits in its reserved byte;
a string key's length fits the `uint16` length prefix. -/
def TagKey.WFk : TagKey → Prop
  | .code c => c < 256
  | .name s => s.length < 65536

instance : ∀ k : TagKey, Decidable (TagKey.WFk k) := fun k => by
  cases k <;> simp only [TagKey.WFk] <;> infer_instance

/-- Well-formedness of a tag value: numeric variants fit their declared
width, the float holds exactly 4 raw bytes, string/blob lengths fit the
`uint16` length prefix. -/
def TagValue.WFv : TagValue → Prop
  | .u8 n => n < 256
  | .u16 n => n < 65536
  | .u32 n => n < 4294967296
  | .u64 n => n < 18446744073709551616
  | .f32 b => b.length = 4
  | .str s => s.length < 65536
  | .blob b => b.length < 65536

instance : ∀ v : TagValue, Decidable (TagValue.WFv v) := fun v => by
  cases v <;> simp only [TagValue.WFv] <;> infer_instance

/-- Well-formedness of a tag: key and value both within domain. -/
def Tag.WF (t : Tag) : Prop := t.key.WFk ∧ t.val.WFv

instance : ∀ t : Tag, Decidable (Tag.WF t) := fun t => by
  unfold Tag.WF; infer_instance

/-- Models the per-message tag reading loops: `n` iterations of `ReadTag`
on the remaining input, appending each successfully read tag to the
accumulator (Go appends to the receiver's slice); a failure stops the
loop, keeping the tags appended so far and reporting the error. -/
def readTagsInto (acc : List Tag) : Nat → List Nat → List Tag × List Nat × Option Err
  | 0, input => (acc, input, none)
  | n + 1, input =>
    match ReadTag input with
    | .error e => (acc, input, some e)
    | .ok (t, rest) => readTagsInto (acc ++ [t]) n rest

/-- Modelled from the spec (§3, §4.4): a file entry — 16-byte hash,
numeric client id, port, and an embedded tag list. -/
structure File where
  Hash : List Nat
  ClientID : Nat
  Port : Nat
  Tags : List Tag
deriving DecidableEq, Repr

/-- Modelled from the spec (§4.4): `File.WriteTo` emits hash (16 bytes),
clientID (uint32 LE), port (uint16 LE), tag count (uint32 LE), then each
tag via the tag codec. -/
def File.WriteTo (f : File) : List Nat :=
  f.Hash ++ u32le f.ClientID ++ u16le f.Port ++ u32le f.Tags.length ++
    (f.Tags.map Tag.WriteTo).flatten

/-- Modelled from the spec (§4.4): `ReadFile` mirrors `File.WriteTo`,
failing with `ShortBuffer` when the reader is exhausted before the fixed
head (hash/clientID/port, then the tag count) and propagating any
tag-codec failure verbatim. -/
def ReadFile (input : List Nat) : Except Err (File × List Nat) :=
  if input.length < 22 then .error .ShortBuffer
  else if (input.drop 22).length < 4 then .error .ShortBuffer
  else
    let tagCount := leVal (slice input 22 4)
    match readTagsInto [] tagCount (input.drop 26) with
    | (_, _, some e) => .error e
    | (tags, rest, none) =>
      .ok (⟨input.take 16, leVal (slice input 16 4), leVal (slice input 20 2), tags⟩, rest)

/-- Models the file reading loop of `OfferFilesMessage.Decode`: `n`
iterations of `ReadFile`, appending each successfully read file to the
accumulator; a failure stops the loop and reports the error. -/
def readFilesInto (acc : List File) : Nat → List Nat → List File × List Nat × Option Err
  | 0, input => (acc, input, none)
  | n + 1, input =>
    match ReadFile input with
    | .error e => (acc, input, some e)
    | .ok (f, rest) => readFilesInto (acc ++ [f]) n rest

/-- A TCP address entry of `ServerListMessage`: a 4-byte IPv4 address and
a port (`*net.TCPAddr` in the source; `none` models a nil pointer). -/
structure TCPAddr where
  ip : List Nat
  port : Nat
deriving DecidableEq, Repr

/-- One 6-byte server descriptor as written by `ServerListMessage.Encode`:
a nil slot is normalized to the zero address with port 0. -/
def addrBytes : Option TCPAddr → List Nat
  | none => [0, 0, 0, 0] ++ u16le 0
  | some a => a.ip ++ u16le a.port

/-- The entry-reading loop of `ServerListMessage.Decode`: each entry is 4
IP bytes then a little-endian port, 6 bytes per entry starting at `pos`. -/
def readAddrs (data : List Nat) (pos : Nat) : Nat → List (Option TCPAddr)
  | 0 => []
  | n + 1 =>
    some ⟨slice data pos 4, leVal (slice data (pos + 4) 2)⟩ :: readAddrs data (pos + 6) n

/-- LoginMessage: first message sent by the client after connecting. -/
structure LoginMessage where
  Header : Header
  UID : List Nat
  ClientID : Nat
  Port : Nat
  Tags : List Tag
deriving DecidableEq, Repr

/-- The zero value of `LoginMessage` (a fresh Go receiver). -/
def LoginMessage.zero : LoginMessage := ⟨⟨0, 0⟩, List.replicate 16 0, 0, 0, []⟩

/-- `LoginMessage.Encode`: header, discriminant, UID, clientID (u32),
port (u16), tag count (u32), tags; then the length field is patched. -/
def LoginMessage.Encode (m : LoginMessage) : List Nat :=
  let data := m.Header.WriteTo ++ MessageLoginRequest ::
    (m.UID ++ u32le m.ClientID ++ u16le m.Port ++ u32le m.Tags.length ++
      (m.Tags.map Tag.WriteTo).flatten)
  putU32At data (data.length - HeaderLength)

/-- `LoginMessage.Decode` on receiver `m`: returns the updated receiver
and an optional error, mirroring the Go pointer-receiver mutation. -/
def LoginMessage.Decode (m : LoginMessage) (data : List Nat) : LoginMessage × Option Err :=
  match Header.Decode data with
  | .error e => (m, some e)
  | .ok header =>
    if data.length < HeaderLength + header.size ∨
        data.length < HeaderLength + (1 + 16 + 4 + 2 + 4) then (m, some .ShortBuffer)
    else if data.getD 5 0 ≠ MessageLoginRequest then (m, some .WrongMessageType)
    else
      let m1 : LoginMessage := { m with
        Header := header
        UID := slice data 6 16
        ClientID := leVal (slice data 22 4)
        Port := leVal (slice data 26 2) }
      let tagCount := leVal (slice data 28 4)
      match readTagsInto m1.Tags tagCount (data.drop 32) with
      | (tags, _, e) => ({ m1 with Tags := tags }, e)

/-- ServerMessage: newline-separated informational text from the server. -/
structure ServerMessage where
  Header : Header
  Messages : List Nat
deriving DecidableEq, Repr

/-- The zero value of `ServerMessage` (a fresh Go receiver). -/
def ServerMessage.zero : ServerMessage := ⟨⟨0, 0⟩, []⟩

/-- `ServerMessage.Encode`: header, discriminant, text length (u16), the
text bytes; then the length field is patched. -/
def ServerMessage.Encode (m : ServerMessage) : List Nat :=
  let data := m.Header.WriteTo ++ MessageServerMessage ::
    (u16le m.Messages.length ++ m.Messages)
  putU32At data (data.length - HeaderLength)

/-- `ServerMessage.Decode` on receiver `m`.  Note the header is assigned
to the receiver before the inner text-length check. -/
def ServerMessage.Decode (m : ServerMessage) (data : List Nat) : ServerMessage × Option Err :=
  match Header.Decode data with
  | .error e => (m, some e)
  | .ok header =>
    if data.length < HeaderLength + header.size ∨
        data.length < HeaderLength + 3 then (m, some .ShortBuffer)
    else if data.getD 5 0 ≠ MessageServerMessage then (m, some .WrongMessageType)
    else
      let m1 : ServerMessage := { m with Header := header }
      let size := leVal (slice data 6 2)
      if data.length < 8 + size then (m1, some .ShortBuffer)
      else ({ m1 with Messages := slice data 8 size }, none)

/-- IDChangeMessage: server's response accepting the login. -/
structure IDChangeMessage where
  Header : Header
  ClientID : Nat
  Bitmap : Nat
deriving DecidableEq, Repr

/-- The zero value of `IDChangeMessage` (a fresh Go receiver). -/
def IDChangeMessage.zero : IDChangeMessage := ⟨⟨0, 0⟩, 0, 0⟩

/-- `IDChangeMessage.Encode`: header, discriminant, clientID (u32),
bitmap (u32); then the length field is patched. -/
def IDChangeMessage.Encode (m : IDChangeMessage) : List Nat :=
  let data := m.Header.WriteTo ++ MessageIDChange ::
    (u32le m.ClientID ++ u32le m.Bitmap)
  putU32At data (data.length - HeaderLength)

/-- `IDChangeMessage.Decode` on receiver `m`. -/
def IDChangeMessage.Decode (m : IDChangeMessage) (data : List Nat) : IDChangeMessage × Option Err :=
  match Header.Decode data with
  | .error e => (m, some e)
  | .ok header =>
    if data.length < HeaderLength + header.size ∨
        data.length < HeaderLength + 9 then (m, some .ShortBuffer)
    else if data.getD 5 0 ≠ MessageIDChange then (m, some .WrongMessageType)
    else
      ({ m with Header := header
                ClientID := leVal (slice data 6 4)
                Bitmap := leVal (slice data 10 4) }, none)

/-- OfferFilesMessage: files the client offers for download. -/
structure OfferFilesMessage where
  Header : Header
  Files : List File
deriving DecidableEq, Repr

/-- The zero value of `OfferFilesMessage` (a fresh Go receiver). -/
def OfferFilesMessage.zero : OfferFilesMessage := ⟨⟨0, 0⟩, []⟩

/-- `OfferFilesMessage.Encode`: header, discriminant, file count (u32),
each file via the file codec; then the length field is patched. -/
def OfferFilesMessage.Encode (m : OfferFilesMessage) : List Nat :=
  let data := m.Header.WriteTo ++ MessageOfferFiles ::
    (u32le m.Files.length ++ (m.Files.map File.WriteTo).flatten)
  putU32At data (data.length - HeaderLength)

/-- `OfferFilesMessage.Decode` on receiver `m`.  The header is assigned
before the file loop; each successfully read file is appended before a
later failure can abort the loop. -/
def OfferFilesMessage.Decode (m : OfferFilesMessage) (data : List Nat) : OfferFilesMessage × Option Err :=
  match Header.Decode data with
  | .error e => (m, some e)
  | .ok header =>
    if data.length < HeaderLength + header.size ∨
        data.length < HeaderLength + 5 then (m, some .ShortBuffer)
    else if data.getD 5 0 ≠ MessageOfferFiles then (m, some .WrongMessageType)
    else
      let m1 : OfferFilesMessage := { m with Header := header }
      let fileCount := leVal (slice data 6 4)
      match readFilesInto m1.Files fileCount (data.drop 10) with
      | (files, _, e) => ({ m1 with Files := files }, e)

/-- GetServerListMessage: request to expand the client's server list. -/
structure GetServerListMessage where
  Header : Header
deriving DecidableEq, Repr

/-- The zero value of `GetServerListMessage` (a fresh Go receiver). -/
def GetServerListMessage.zero : GetServerListMessage := ⟨⟨0, 0⟩⟩

/-- `GetServerListMessage.Encode`: header and discriminant only; then the
length field is patched. -/
def GetServerListMessage.Encode (m : GetServerListMessage) : List Nat :=
  let data := m.Header.WriteTo ++ [MessageGetServerList]
  putU32At data (data.length - HeaderLength)

/-- `GetServerListMessage.Decode` on receiver `m`. -/
def GetServerListMessage.Decode (m : GetServerListMessage) (data : List Nat) :
    GetServerListMessage × Option Err :=
  match Header.Decode data with
  | .error e => (m, some e)
  | .ok header =>
    if data.length < HeaderLength + header.size ∨
        data.length < HeaderLength + 1 then (m, some .ShortBuffer)
    else if data.getD 5 0 ≠ MessageGetServerList then (m, some .WrongMessageType)
    else ({ m with Header := header }, none)

/-- ServerListMessage: additional server descriptors for the client. -/
structure ServerListMessage where
  Header : Header
  Servers : List (Option TCPAddr)
deriving DecidableEq, Repr

/-- The zero value of `ServerListMessage` (a fresh Go receiver). -/
def ServerListMessage.zero : ServerListMessage := ⟨⟨0, 0⟩, []⟩

/-- `ServerListMessage.Encode`: header, discriminant, a single count byte
(`byte(len(m.Servers))`, i.e. the length mod 256), then one 6-byte entry
per server with nil slots normalized to the zero address; then the length
field is patched. -/
def ServerListMessage.Encode (m : ServerListMessage) : List Nat :=
  let data := m.Header.WriteTo ++ MessageServerList :: (m.Servers.length % 256) ::
    (m.Servers.map addrBytes).flatten
  putU32At data (data.length - HeaderLength)

/-- `ServerListMessage.Decode` on receiver `m`.  The header is assigned
before the entry-count bound check; entries are appended to the
receiver's existing list. -/
def ServerListMessage.Decode (m : ServerListMessage) (data : List Nat) :
    ServerListMessage × Option Err :=
  match Header.Decode data with
  | .error e => (m, some e)
  | .ok header =>
    if data.length < HeaderLength + header.size ∨
        data.length < HeaderLength + 2 then (m, some .ShortBuffer)
    else if data.getD 5 0 ≠ MessageServerList then (m, some .WrongMessageType)
    else
      let m1 : ServerListMessage := { m with Header := header }
      let count := data.getD 6 0
      if data.length < 7 + count * 6 then (m1, some .ShortBuffer)
      else ({ m1 with Servers := m1.Servers ++ readAddrs data 7 count }, none)

/-- ServerStatusMessage: current user and file counts of the server. -/
structure ServerStatusMessage where
  Header : Header
  UserCount : Nat
  FileCount : Nat
deriving DecidableEq, Repr

/-- The zero value of `ServerStatusMessage` (a fresh Go receiver). -/
def ServerStatusMessage.zero : ServerStatusMessage := ⟨⟨0, 0⟩, 0, 0⟩

/-- `ServerStatusMessage.Encode`: header, discriminant, user count (u32),
file count (u32); then the length field is patched. -/
def ServerStatusMessage.Encode (m : ServerStatusMessage) : List Nat :=
  let data := m.Header.WriteTo ++ MessageServerStatus ::
    (u32le m.UserCount ++ u32le m.FileCount)
  putU32At data (data.length - HeaderLength)

/-- `ServerStatusMessage.Decode` on receiver `m`. -/
def ServerStatusMessage.Decode (m : ServerStatusMessage) (data : List Nat) :
    ServerStatusMessage × Option Err :=
  match Header.Decode data with
  | .error e => (m, some e)
  | .ok header =>
    if data.length < HeaderLength + header.size ∨
        data.length < HeaderLength + 9 then (m, some .ShortBuffer)
    else if data.getD 5 0 ≠ MessageServerStatus then (m, some .WrongMessageType)
    else
      ({ m with Header := header
                UserCount := leVal (slice data 6 4)
                FileCount := leVal (slice data 10 4) }, none)

/-- ServerIdentMessage: server hash, address and description tags. -/
structure ServerIdentMessage where
  Header : Header
  Hash : List Nat
  IP : Nat
  Port : Nat
  Tags : List Tag
deriving DecidableEq, Repr

/-- The zero value of `ServerIdentMessage` (a fresh Go receiver). -/
def ServerIdentMessage.zero : ServerIdentMessage := ⟨⟨0, 0⟩, List.replicate 16 0, 0, 0, []⟩

/-- `ServerIdentMessage.Encode`: header, discriminant, hash (16 bytes),
IP (u32), port (u16), tag count (u32), tags; then the length field is
patched. -/
def ServerIdentMessage.Encode (m : ServerIdentMessage) : List Nat :=
  let data := m.Header.WriteTo ++ MessageServerIdent ::
    (m.Hash ++ u32le m.IP ++ u16le m.Port ++ u32le m.Tags.length ++
      (m.Tags.map Tag.WriteTo).flatten)
  putU32At data (data.length - HeaderLength)

/-- `ServerIdentMessage.Decode` on receiver `m`.  Faithful to the source:
the first length check reads `m.Header.Size` — the receiver's previous
header — rather than the freshly decoded `header`, and the static
minimum is 29 body bytes although the fixed body is 27 bytes. -/
def ServerIdentMessage.Decode (m : ServerIdentMessage) (data : List Nat) :
    ServerIdentMessage × Option Err :=
  match Header.Decode data with
  | .error e => (m, some e)
  | .ok header =>
    if data.length < HeaderLength + m.Header.size ∨
        data.length < HeaderLength + 29 then (m, some .ShortBuffer)
    else if data.getD 5 0 ≠ MessageServerIdent then (m, some .WrongMessageType)
    else
      let m1 : ServerIdentMessage := { m with
        Header := header
        Hash := slice data 6 16
        IP := leVal (slice data 22 4)
        Port := leVal (slice data 26 2) }
      let tagCount := leVal (slice data 28 4)
      match readTagsInto m1.Tags tagCount (data.drop 32) with
      | (tags, _, e) => ({ m1 with Tags := tags }, e)

/-! ### Generic byte-level lemmas -/

theorem take_len_app (l1 l2 : List Nat) (n : Nat) (h : l1.length = n) :
    (l1 ++ l2).take n = l1 := by
  subst h; exact List.take_left l1 l2

theorem drop_len_app (l1 l2 : List Nat) (n : Nat) (h : l1.length = n) :
    (l1 ++ l2).drop n = l2 := by
  subst h; exact List.drop_left l1 l2

theorem drop_add_app (l1 l2 : List Nat) (n k : Nat) (h : l1.length = n) :
    (l1 ++ l2).drop (n + k) = l2.drop k := by
  subst h
  rw [← List.drop_drop, List.drop_left]

theorem drop_split (l : List Nat) (a b c : Nat) (h : a + b = c) :
    l.drop c = (l.drop a).drop b := by
  subst h
  rw [List.drop_drop, Nat.add_comm]

theorem u16le_length (n : Nat) : (u16le n).length = 2 := rfl

theorem u32le_length (n : Nat) : (u32le n).length = 4 := rfl

theorem u64le_length (n : Nat) : (u64le n).length = 8 := rfl

theorem leVal_u16le (n : Nat) : leVal (u16le n) = n % 65536 := by
  simp [u16le, leVal]; omega

theorem leVal_u32le (n : Nat) : leVal (u32le n) = n % 4294967296 := by
  simp [u32le, leVal]; omega

theorem leVal_u64le (n : Nat) : leVal (u64le n) = n % 18446744073709551616 := by
  simp [u64le, leVal]; omega

/-! ### Frame lemmas: the shape shared by all encoders and decoders -/

theorem encode_frame (hd : Header) (disc : Nat) (body : List Nat) :
    putU32At (hd.WriteTo ++ disc :: body) ((hd.WriteTo ++ disc :: body).length - HeaderLength)
      = hd.protocol :: (u32le (1 + body.length) ++ disc :: body) := by
  have hlen : (hd.WriteTo ++ disc :: body).length - HeaderLength = 1 + body.length := by
    simp [Header.WriteTo, u32le, HeaderLength]; omega
  rw [hlen]; rfl

theorem frame_length (p S d : Nat) (tl : List Nat) :
    (p :: (u32le S ++ d :: tl)).length = 6 + tl.length := by
  simp [u32le]; omega

theorem Header.Decode_frame (p S d : Nat) (tl : List Nat) :
    Header.Decode (p :: (u32le S ++ d :: tl)) = .ok ⟨p, S % 4294967296⟩ := by
  have h5 : ¬ ((p :: (u32le S ++ d :: tl)).length < 5) := by
    rw [frame_length]; omega
  unfold Header.Decode
  rw [if_neg h5]
  have hs : slice (p :: (u32le S ++ d :: tl)) 1 4 = u32le S := rfl
  rw [hs, leVal_u32le]
  rfl

theorem frame_getD5 (p S d : Nat) (tl : List Nat) :
    (p :: (u32le S ++ d :: tl)).getD 5 0 = d := rfl

theorem frame_getD6 (p S d : Nat) (tl : List Nat) :
    (p :: (u32le S ++ d :: tl)).getD 6 0 = tl.getD 0 0 := rfl

theorem frame_slice6 (p S d n : Nat) (tl : List Nat) :
    slice (p :: (u32le S ++ d :: tl)) 6 n = tl.take n := rfl

theorem frame_slice8 (p S d n : Nat) (tl : List Nat) :
    slice (p :: (u32le S ++ d :: tl)) 8 n = (tl.drop 2).take n := rfl

theorem frame_slice10 (p S d n : Nat) (tl : List Nat) :
    slice (p :: (u32le S ++ d :: tl)) 10 n = (tl.drop 4).take n := rfl

theorem frame_slice22 (p S d n : Nat) (tl : List Nat) :
    slice (p :: (u32le S ++ d :: tl)) 22 n = (tl.drop 16).take n := rfl

theorem frame_slice26 (p S d n : Nat) (tl : List Nat) :
    slice (p :: (u32le S ++ d :: tl)) 26 n = (tl.drop 20).take n := rfl

theorem frame_slice28 (p S d n : Nat) (tl : List Nat) :
    slice (p :: (u32le S ++ d :: tl)) 28 n = (tl.drop 22).take n := rfl

theorem frame_drop7 (p S d : Nat) (tl : List Nat) :
    (p :: (u32le S ++ d :: tl)).drop 7 = tl.drop 1 := rfl

theorem frame_drop10 (p S d : Nat) (tl : List Nat) :
    (p :: (u32le S ++ d :: tl)).drop 10 = tl.drop 4 := rfl

theorem frame_drop32 (p S d : Nat) (tl : List Nat) :
    (p :: (u32le S ++ d :: tl)).drop 32 = tl.drop 26 := rfl

theorem frame_slice14 (p S d : Nat) (tl : List Nat) :
    slice (p :: (u32le S ++ d :: tl)) 1 4 = u32le S := rfl

theorem frame_drop5 (p S d : Nat) (tl : List Nat) :
    (p :: (u32le S ++ d :: tl)).drop 5 = d :: tl := rfl

/-! ### Tag codec round trip -/

theorem TagValue.vcode_lt (v : TagValue) : v.vcode < 128 := by
  cases v <;> simp [TagValue.vcode]

theorem readTagValue_bytes (v : TagValue) (rest : List Nat) (h : v.WFv) :
    readTagValue v.vcode (v.bytes ++ rest) = .ok (v, rest) := by
  cases v with
  | u8 n =>
    simp [readTagValue, TagValue.vcode, TagValue.bytes]
  | u16 n =>
    have ht : ((u16le n ++ rest).take 2) = u16le n := take_len_app _ _ _ (u16le_length n)
    have hd : ((u16le n ++ rest).drop 2) = rest := drop_len_app _ _ _ (u16le_length n)
    simp only [readTagValue, TagValue.vcode, TagValue.bytes]
    rw [if_neg (by simp [u16le]), ht, hd, leVal_u16le, Nat.mod_eq_of_lt h]
  | u32 n =>
    have ht : ((u32le n ++ rest).take 4) = u32le n := take_len_app _ _ _ (u32le_length n)
    have hd : ((u32le n ++ rest).drop 4) = rest := drop_len_app _ _ _ (u32le_length n)
    simp only [readTagValue, TagValue.vcode, TagValue.bytes]
    rw [if_neg (by simp [u32le]), ht, hd, leVal_u32le, Nat.mod_eq_of_lt h]
  | u64 n =>
    have ht : ((u64le n ++ rest).take 8) = u64le n := take_len_app _ _ _ (u64le_length n)
    have hd : ((u64le n ++ rest).drop 8) = rest := drop_len_app _ _ _ (u64le_length n)
    simp only [readTagValue, TagValue.vcode, TagValue.bytes]
    rw [if_neg (by simp [u64le]), ht, hd, leVal_u64le, Nat.mod_eq_of_lt h]
  | f32 b =>
    have hb : b.length = 4 := h
    have ht : ((b ++ rest).take 4) = b := take_len_app _ _ _ hb
    have hd : ((b ++ rest).drop 4) = rest := drop_len_app _ _ _ hb
    simp only [readTagValue, TagValue.vcode, TagValue.bytes]
    rw [if_neg (by simp [List.length_append, hb]), ht, hd]
  | str s =>
    have hpre : ((u16le s.length ++ s ++ rest).take 2) = u16le s.length := by
      rw [List.append_assoc]; exact take_len_app _ _ _ (u16le_length _)
    have hdrop : ((u16le s.length ++ s ++ rest).drop 2) = s ++ rest := by
      rw [List.append_assoc]; exact drop_len_app _ _ _ (u16le_length _)
    simp only [readTagValue, TagValue.vcode, TagValue.bytes, List.append_assoc]
    rw [← List.append_assoc]
    rw [if_neg (by simp [u16le]), hpre, leVal_u16le, Nat.mod_eq_of_lt h, hdrop]
    rw [if_neg (by simp), take_len_app s rest _ rfl, drop_len_app s rest _ rfl]
  | blob b =>
    have hpre : ((u16le b.length ++ b ++ rest).take 2) = u16le b.length := by
      rw [List.append_assoc]; exact take_len_app _ _ _ (u16le_length _)
    have hdrop : ((u16le b.length ++ b ++ rest).drop 2) = b ++ rest := by
      rw [List.append_assoc]; exact drop_len_app _ _ _ (u16le_length _)
    simp only [readTagValue, TagValue.vcode, TagValue.bytes, List.append_assoc]
    rw [← List.append_assoc]
    rw [if_neg (by simp [u16le]), hpre, leVal_u16le, Nat.mod_eq_of_lt h, hdrop]
    rw [if_neg (by simp), take_len_app b rest _ rfl, drop_len_app b rest _ rfl]

theorem ReadTag_WriteTo (t : Tag) (rest : List Nat) (h : t.WF) :
    ReadTag (t.WriteTo ++ rest) = .ok (t, rest) := by
  obtain ⟨hk, hv⟩ := h
  obtain ⟨key, v⟩ := t
  have hvc := TagValue.vcode_lt v
  cases key with
  | code c =>
    have hmod : (v.vcode + 128) % 128 = v.vcode := by omega
    show ReadTag ((v.vcode + 128) :: c :: (v.bytes ++ rest)) = _
    simp only [ReadTag, readTagKey, if_pos (by omega : 128 ≤ v.vcode + 128), hmod]
    rw [readTagValue_bytes v rest hv]
  | name s =>
    have hmod : v.vcode % 128 = v.vcode := Nat.mod_eq_of_lt hvc
    have hpre : ((u16le s.length ++ (s ++ (v.bytes ++ rest))).take 2) = u16le s.length :=
      take_len_app _ _ _ (u16le_length _)
    have hdrop : ((u16le s.length ++ (s ++ (v.bytes ++ rest))).drop 2) = s ++ (v.bytes ++ rest) :=
      drop_len_app _ _ _ (u16le_length _)
    show ReadTag (v.vcode :: ((u16le s.length ++ s ++ v.bytes) ++ rest)) = _
    have hassoc : (u16le s.length ++ s ++ v.bytes) ++ rest
        = u16le s.length ++ (s ++ (v.bytes ++ rest)) := by
      simp [List.append_assoc]
    rw [hassoc]
    simp only [ReadTag, readTagKey, hmod]
    rw [if_neg (by omega : ¬ 128 ≤ v.vcode),
      if_neg (by simp [u16le] : ¬ (u16le s.length ++ (s ++ (v.bytes ++ rest))).length < 2),
      hpre, hdrop, leVal_u16le, Nat.mod_eq_of_lt hk]
    rw [if_neg (by simp), take_len_app s _ _ rfl, drop_len_app s _ _ rfl]
    simp only [readTagValue_bytes v rest hv]

theorem readTagsInto_spec (ts : List Tag) (h : ∀ t ∈ ts, t.WF) (acc : List Tag)
    (rest : List Nat) :
    readTagsInto acc ts.length ((ts.map Tag.WriteTo).flatten ++ rest) = (acc ++ ts, rest, none) := by
  induction ts generalizing acc with
  | nil => simp [readTagsInto]
  | cons t ts ih =>
    have hw : t.WF := h t (by simp)
    have hrec : ∀ u ∈ ts, u.WF := fun u hu => h u (by simp [hu])
    simp only [List.map_cons, List.flatten_cons, List.length_cons, List.append_assoc]
    show readTagsInto acc (ts.length + 1) (t.WriteTo ++ ((ts.map Tag.WriteTo).flatten ++ rest)) = _
    simp only [readTagsInto, ReadTag_WriteTo t _ hw]
    rw [ih hrec (acc ++ [t])]
    simp

/-! ### File codec round trip -/

/-- Well-formedness of a file entry: fields within their declared widths. -/
def File.WF (f : File) : Prop :=
  f.Hash.length = 16 ∧ f.ClientID < 4294967296 ∧ f.Port < 65536 ∧
  f.Tags.length < 4294967296 ∧ ∀ t ∈ f.Tags, t.WF

instance : ∀ f : File, Decidable (File.WF f) := fun f => by
  unfold File.WF; infer_instance

theorem ReadFile_WriteTo (f : File) (rest : List Nat) (h : f.WF) :
    ReadFile (f.WriteTo ++ rest) = .ok (f, rest) := by
  obtain ⟨hH, hC, hP, hTN, hT⟩ := h
  obtain ⟨hash, cid, port, tags⟩ := f
  have hassoc : File.WriteTo ⟨hash, cid, port, tags⟩ ++ rest
      = hash ++ (u32le cid ++ (u16le port ++ (u32le tags.length ++
          ((tags.map Tag.WriteTo).flatten ++ rest)))) := by
    simp [File.WriteTo, List.append_assoc]
  rw [hassoc]
  set L := hash ++ (u32le cid ++ (u16le port ++ (u32le tags.length ++
      ((tags.map Tag.WriteTo).flatten ++ rest)))) with hL
  have h16 : L.drop 16 = u32le cid ++ (u16le port ++ (u32le tags.length ++
      ((tags.map Tag.WriteTo).flatten ++ rest))) := by
    rw [hL]; exact drop_len_app _ _ _ hH
  have h20 : L.drop 20
      = u16le port ++ (u32le tags.length ++ ((tags.map Tag.WriteTo).flatten ++ rest)) := by
    rw [drop_split L 16 4 20 (by norm_num), h16, drop_len_app _ _ _ (u32le_length cid)]
  have h22 : L.drop 22
      = u32le tags.length ++ ((tags.map Tag.WriteTo).flatten ++ rest) := by
    rw [drop_split L 20 2 22 (by norm_num), h20, drop_len_app _ _ _ (u16le_length port)]
  have h26 : L.drop 26 = (tags.map Tag.WriteTo).flatten ++ rest := by
    rw [drop_split L 22 4 26 (by norm_num), h22,
      drop_len_app _ _ _ (u32le_length tags.length)]
  have hlen : 26 ≤ L.length := by
    rw [hL]
    simp [List.length_append, hH, u32le, u16le]
    omega
  have hs224 : slice L 22 4 = u32le tags.length := by
    unfold slice; rw [h22]; exact take_len_app _ _ _ (u32le_length _)
  have hs164 : slice L 16 4 = u32le cid := by
    unfold slice; rw [h16]; exact take_len_app _ _ _ (u32le_length _)
  have hs202 : slice L 20 2 = u16le port := by
    unfold slice; rw [h20]; exact take_len_app _ _ _ (u16le_length _)
  have htake : L.take 16 = hash := by
    rw [hL]; exact take_len_app _ _ _ hH
  unfold ReadFile
  rw [if_neg (by omega), if_neg (by rw [List.length_drop]; omega)]
  simp only [hs224, leVal_u32le, h26, hs164, hs202, htake, leVal_u16le]
  rw [Nat.mod_eq_of_lt hTN, Nat.mod_eq_of_lt hC, Nat.mod_eq_of_lt hP,
    readTagsInto_spec tags hT [] rest]
  simp

theorem readFilesInto_spec (fs : List File) (h : ∀ f ∈ fs, f.WF) (acc : List File)
    (rest : List Nat) :
    readFilesInto acc fs.length ((fs.map File.WriteTo).flatten ++ rest) = (acc ++ fs, rest, none) := by
  induction fs generalizing acc with
  | nil => simp [readFilesInto]
  | cons f fs ih =>
    have hw : f.WF := h f (by simp)
    have hrec : ∀ u ∈ fs, u.WF := fun u hu => h u (by simp [hu])
    simp only [List.map_cons, List.flatten_cons, List.length_cons, List.append_assoc]
    show readFilesInto acc (fs.length + 1) (f.WriteTo ++ ((fs.map File.WriteTo).flatten ++ rest)) = _
    simp only [readFilesInto, ReadFile_WriteTo f _ hw]
    rw [ih hrec (acc ++ [f])]
    simp

/-! ### Server list entries round trip -/

/-- Well-formedness of a server slot for the round-trip law: the slot is
present (non-nil), carries a 4-byte IPv4 address and an in-range port. -/
def slotWF : Option TCPAddr → Prop
  | none => False
  | some a => a.ip.length = 4 ∧ a.port < 65536

instance : ∀ s : Option TCPAddr, Decidable (slotWF s) := fun s => by
  cases s <;> simp only [slotWF] <;> infer_instance

theorem readAddrs_spec (addrs : List (Option TCPAddr)) (h : ∀ a ∈ addrs, slotWF a)
    (data rest : List Nat) : ∀ pos, data.drop pos = (addrs.map addrBytes).flatten ++ rest →
    readAddrs data pos addrs.length = addrs := by
  induction addrs with
  | nil => intro pos _; simp [readAddrs]
  | cons a addrs ih =>
    intro pos hpos
    cases a with
    | none => exact ((h none (by simp)).elim)
    | some t =>
      obtain ⟨hip, hport⟩ := h (some t) (by simp)
      have hflat : data.drop pos
          = t.ip ++ (u16le t.port ++ ((addrs.map addrBytes).flatten ++ rest)) := by
        rw [hpos]; simp [addrBytes, List.append_assoc]
      have hd4 : (data.drop pos).drop 4
          = u16le t.port ++ ((addrs.map addrBytes).flatten ++ rest) := by
        rw [hflat]; exact drop_len_app _ _ _ hip
      have hd6 : (data.drop pos).drop 6 = (addrs.map addrBytes).flatten ++ rest := by
        rw [hflat, drop_split _ 4 2 6 (by norm_num), drop_len_app _ _ _ hip,
          drop_len_app _ _ _ (u16le_length _)]
      have e1 : slice data pos 4 = t.ip := by
        unfold slice; rw [hflat]; exact take_len_app _ _ _ hip
      have e2 : slice data (pos + 4) 2 = u16le t.port := by
        unfold slice
        have hc : data.drop (pos + 4) = (data.drop pos).drop 4 := by
          rw [List.drop_drop, Nat.add_comm]
        rw [hc, hd4]
        exact take_len_app _ _ _ (u16le_length _)
      have e3 : data.drop (pos + 6) = (addrs.map addrBytes).flatten ++ rest := by
        have hc : data.drop (pos + 6) = (data.drop pos).drop 6 := by
          rw [List.drop_drop, Nat.add_comm]
        rw [hc, hd6]
      simp only [List.length_cons, readAddrs, e1, e2, leVal_u16le,
        Nat.mod_eq_of_lt hport]
      rw [ih (fun u hu => h u (by simp [hu])) (pos + 6) e3]

/-! ### Encoder normal forms -/

theorem take4_u32le (n : Nat) : (u32le n).take 4 = u32le n := rfl

theorem take2_u16le (n : Nat) : (u16le n).take 2 = u16le n := rfl

theorem Header.Decode_frame_lt (p S d : Nat) (tl : List Nat) (h : S < 4294967296) :
    Header.Decode (p :: (u32le S ++ d :: tl)) = .ok ⟨p, S⟩ := by
  rw [Header.Decode_frame, Nat.mod_eq_of_lt h]

theorem LoginMessage.encode_eq_login (m : LoginMessage) :
    m.Encode = m.Header.protocol ::
      (u32le (1 + (m.UID ++ u32le m.ClientID ++ u16le m.Port ++ u32le m.Tags.length ++
        (m.Tags.map Tag.WriteTo).flatten).length) ++
      MessageLoginRequest :: (m.UID ++ u32le m.ClientID ++ u16le m.Port ++
        u32le m.Tags.length ++ (m.Tags.map Tag.WriteTo).flatten)) :=
  encode_frame _ _ _

theorem ServerMessage.encode_eq_server_msg (m : ServerMessage) :
    m.Encode = m.Header.protocol ::
      (u32le (1 + (u16le m.Messages.length ++ m.Messages).length) ++
      MessageServerMessage :: (u16le m.Messages.length ++ m.Messages)) :=
  encode_frame _ _ _

theorem IDChangeMessage.encode_eq_id_change (m : IDChangeMessage) :
    m.Encode = m.Header.protocol ::
      (u32le (1 + (u32le m.ClientID ++ u32le m.Bitmap).length) ++
      MessageIDChange :: (u32le m.ClientID ++ u32le m.Bitmap)) :=
  encode_frame _ _ _

theorem OfferFilesMessage.encode_eq_offer_files (m : OfferFilesMessage) :
    m.Encode = m.Header.protocol ::
      (u32le (1 + (u32le m.Files.length ++ (m.Files.map File.WriteTo).flatten).length) ++
      MessageOfferFiles :: (u32le m.Files.length ++ (m.Files.map File.WriteTo).flatten)) :=
  encode_frame _ _ _

theorem GetServerListMessage.encode_eq_get_server_list (m : GetServerListMessage) :
    m.Encode = m.Header.protocol :: (u32le 1 ++ [MessageGetServerList]) :=
  encode_frame _ _ _

theorem ServerListMessage.encode_eq_server_list (m : ServerListMessage) :
    m.Encode = m.Header.protocol ::
      (u32le (1 + ((m.Servers.length % 256) :: (m.Servers.map addrBytes).flatten).length) ++
      MessageServerList :: (m.Servers.length % 256) :: (m.Servers.map addrBytes).flatten) :=
  encode_frame _ _ _

theorem ServerStatusMessage.encode_eq_server_status (m : ServerStatusMessage) :
    m.Encode = m.Header.protocol ::
      (u32le (1 + (u32le m.UserCount ++ u32le m.FileCount).length) ++
      MessageServerStatus :: (u32le m.UserCount ++ u32le m.FileCount)) :=
  encode_frame _ _ _

theorem ServerIdentMessage.encode_eq_server_ident (m : ServerIdentMessage) :
    m.Encode = m.Header.protocol ::
      (u32le (1 + (m.Hash ++ u32le m.IP ++ u16le m.Port ++ u32le m.Tags.length ++
        (m.Tags.map Tag.WriteTo).flatten).length) ++
      MessageServerIdent :: (m.Hash ++ u32le m.IP ++ u16le m.Port ++
        u32le m.Tags.length ++ (m.Tags.map Tag.WriteTo).flatten)) :=
  encode_frame _ _ _

/-! ### Round trip: IDChangeMessage -/

/-- Declared domain of an `IDChangeMessage`: 32-bit fields, and a header
whose payload length satisfies the header invariant. -/
def IDChangeMessage.WF (m : IDChangeMessage) : Prop :=
  m.ClientID < 4294967296 ∧ m.Bitmap < 4294967296 ∧
  m.Header.size = m.Encode.length - HeaderLength

instance : ∀ m : IDChangeMessage, Decidable (IDChangeMessage.WF m) := fun m => by
  unfold IDChangeMessage.WF; infer_instance

theorem IDChangeMessage.decode_encode_id_change (m : IDChangeMessage) (h : m.WF) :
    IDChangeMessage.Decode .zero m.Encode = (m, none) := by
  obtain ⟨hC, hB, hS⟩ := h
  obtain ⟨⟨p, sz⟩, cid, bm⟩ := m
  have hS9 : sz = 9 := by
    rw [IDChangeMessage.encode_eq_id_change] at hS
    simpa [frame_length, u32le] using hS
  subst hS9
  rw [IDChangeMessage.encode_eq_id_change]
  simp only [u32le_length, List.length_append]
  norm_num
  have hd4 : (u32le cid ++ u32le bm).drop 4 = u32le bm :=
    drop_len_app _ _ _ (u32le_length cid)
  unfold IDChangeMessage.Decode
  rw [Header.Decode_frame_lt p 9 MessageIDChange (u32le cid ++ u32le bm) (by norm_num)]
  simp only [frame_length, frame_getD5, frame_slice6, frame_slice10, hd4,
    take4_u32le, u32le_length, List.length_append, take_len_app _ _ _ (u32le_length cid),
    leVal_u32le, Nat.mod_eq_of_lt hC, Nat.mod_eq_of_lt hB, HeaderLength]
  norm_num

/-! ### Round trip: ServerStatusMessage -/

/-- Declared domain of a `ServerStatusMessage`: 32-bit counters, and a
header whose payload length satisfies the header invariant. -/
def ServerStatusMessage.WF (m : ServerStatusMessage) : Prop :=
  m.UserCount < 4294967296 ∧ m.FileCount < 4294967296 ∧
  m.Header.size = m.Encode.length - HeaderLength

instance : ∀ m : ServerStatusMessage, Decidable (ServerStatusMessage.WF m) := fun m => by
  unfold ServerStatusMessage.WF; infer_instance

theorem ServerStatusMessage.decode_encode_server_status (m : ServerStatusMessage) (h : m.WF) :
    ServerStatusMessage.Decode .zero m.Encode = (m, none) := by
  obtain ⟨hU, hF, hS⟩ := h
  obtain ⟨⟨p, sz⟩, uc, fc⟩ := m
  have hS9 : sz = 9 := by
    rw [ServerStatusMessage.encode_eq_server_status] at hS
    simpa [frame_length, u32le] using hS
  subst hS9
  rw [ServerStatusMessage.encode_eq_server_status]
  simp only [u32le_length, List.length_append]
  norm_num
  have hd4 : (u32le uc ++ u32le fc).drop 4 = u32le fc :=
    drop_len_app _ _ _ (u32le_length uc)
  unfold ServerStatusMessage.Decode
  rw [Header.Decode_frame_lt p 9 MessageServerStatus (u32le uc ++ u32le fc) (by norm_num)]
  simp only [frame_length, frame_getD5, frame_slice6, frame_slice10, hd4,
    take4_u32le, u32le_length, List.length_append, take_len_app _ _ _ (u32le_length uc),
    leVal_u32le, Nat.mod_eq_of_lt hU, Nat.mod_eq_of_lt hF, HeaderLength]
  norm_num

/-! ### Round trip: GetServerListMessage -/

/-- Declared domain of a `GetServerListMessage`: a header whose payload
length satisfies the header invariant. -/
def GetServerListMessage.WF (m : GetServerListMessage) : Prop :=
  m.Header.size = m.Encode.length - HeaderLength

instance : ∀ m : GetServerListMessage, Decidable (GetServerListMessage.WF m) := fun m => by
  unfold GetServerListMessage.WF; infer_instance

theorem GetServerListMessage.decode_encode_get_server_list (m : GetServerListMessage) (h : m.WF) :
    GetServerListMessage.Decode .zero m.Encode = (m, none) := by
  obtain ⟨⟨p, sz⟩⟩ := m
  unfold GetServerListMessage.WF at h
  have hS1 : sz = 1 := by
    rw [GetServerListMessage.encode_eq_get_server_list] at h
    simpa [frame_length, u32le, HeaderLength] using h
  subst hS1
  rw [GetServerListMessage.encode_eq_get_server_list]
  unfold GetServerListMessage.Decode
  rw [Header.Decode_frame_lt p 1 MessageGetServerList [] (by norm_num)]
  simp only [frame_length, frame_getD5, HeaderLength]
  norm_num

/-! ### Round trip: ServerMessage -/

/-- Declared domain of a `ServerMessage`: the text length fits the
`uint16` prefix, and the header satisfies the header invariant. -/
def ServerMessage.WF (m : ServerMessage) : Prop :=
  m.Messages.length < 65536 ∧ m.Header.size = m.Encode.length - HeaderLength

instance : ∀ m : ServerMessage, Decidable (ServerMessage.WF m) := fun m => by
  unfold ServerMessage.WF; infer_instance

theorem ServerMessage.decode_encode_server_msg (m : ServerMessage) (h : m.WF) :
    ServerMessage.Decode .zero m.Encode = (m, none) := by
  obtain ⟨hL0, hS⟩ := h
  obtain ⟨⟨p, sz⟩, msgs⟩ := m
  have hL : msgs.length < 65536 := hL0
  have hlen2 : (u16le msgs.length ++ msgs).length = 2 + msgs.length := by
    simp [u16le]
    omega
  have hSz : sz = 3 + msgs.length := by
    rw [ServerMessage.encode_eq_server_msg] at hS
    simp only [frame_length, hlen2, HeaderLength] at hS
    omega
  subst hSz
  rw [ServerMessage.encode_eq_server_msg]
  simp only [hlen2]
  rw [(by omega : 1 + (2 + msgs.length) = 3 + msgs.length)]
  unfold ServerMessage.Decode
  rw [Header.Decode_frame_lt p (3 + msgs.length) MessageServerMessage
    (u16le msgs.length ++ msgs) (by omega)]
  simp only [frame_length, frame_getD5, frame_slice6, frame_slice8, HeaderLength,
    take_len_app _ _ _ (u16le_length msgs.length),
    drop_len_app _ _ _ (u16le_length msgs.length),
    leVal_u16le, Nat.mod_eq_of_lt hL, List.take_length]
  rw [if_neg (by omega), if_neg (by simp [MessageServerMessage]), if_neg (by omega)]

/-! ### Round trip: LoginMessage -/

/-- Declared domain of a `LoginMessage`: 16-byte UID, fields within their
declared widths, well-formed tags, and a header satisfying the header
invariant with a payload length that fits its `uint32` field. -/
def LoginMessage.WF (m : LoginMessage) : Prop :=
  m.UID.length = 16 ∧ m.ClientID < 4294967296 ∧ m.Port < 65536 ∧
  m.Tags.length < 4294967296 ∧ (∀ t ∈ m.Tags, t.WF) ∧
  m.Header.size = m.Encode.length - HeaderLength ∧
  m.Encode.length - HeaderLength < 4294967296

instance : ∀ m : LoginMessage, Decidable (LoginMessage.WF m) := fun m => by
  unfold LoginMessage.WF; infer_instance

theorem LoginMessage.decode_encode_login (m : LoginMessage) (h : m.WF) :
    LoginMessage.Decode .zero m.Encode = (m, none) := by
  obtain ⟨hU0, hC0, hP0, hTN0, hT0, hS0, hLt0⟩ := h
  obtain ⟨⟨p, sz⟩, uid, cid, port, tags⟩ := m
  have hU : uid.length = 16 := hU0
  have hC : cid < 4294967296 := hC0
  have hP : port < 65536 := hP0
  have hTN : tags.length < 4294967296 := hTN0
  have hT : ∀ t ∈ tags, t.WF := hT0
  have hassoc : uid ++ u32le cid ++ u16le port ++ u32le tags.length ++
      (tags.map Tag.WriteTo).flatten
      = uid ++ (u32le cid ++ (u16le port ++ (u32le tags.length ++
          (tags.map Tag.WriteTo).flatten))) := by
    simp [List.append_assoc]
  have hblen : (uid ++ u32le cid ++ u16le port ++ u32le tags.length ++
      (tags.map Tag.WriteTo).flatten).length
      = 26 + ((tags.map Tag.WriteTo).flatten).length := by
    simp [List.length_append, hU, u32le, u16le]
    omega
  have hSz : sz = 27 + ((tags.map Tag.WriteTo).flatten).length := by
    rw [LoginMessage.encode_eq_login] at hS0
    simp only [frame_length, hblen, HeaderLength] at hS0
    omega
  have hLt : 27 + ((tags.map Tag.WriteTo).flatten).length < 4294967296 := by
    rw [LoginMessage.encode_eq_login] at hLt0
    simp only [frame_length, hblen, HeaderLength] at hLt0
    omega
  rw [LoginMessage.encode_eq_login, hassoc]
  set tl := uid ++ (u32le cid ++ (u16le port ++ (u32le tags.length ++
      (tags.map Tag.WriteTo).flatten))) with htl
  have hlen : tl.length = 26 + ((tags.map Tag.WriteTo).flatten).length := by
    rw [htl]
    simp [List.length_append, hU, u32le, u16le]
    omega
  have h16 : tl.drop 16 = u32le cid ++ (u16le port ++ (u32le tags.length ++
      (tags.map Tag.WriteTo).flatten)) := by
    rw [htl]; exact drop_len_app _ _ _ hU
  have h20 : tl.drop 20 = u16le port ++ (u32le tags.length ++
      (tags.map Tag.WriteTo).flatten) := by
    rw [drop_split tl 16 4 20 (by norm_num), h16, drop_len_app _ _ _ (u32le_length cid)]
  have h22 : tl.drop 22 = u32le tags.length ++ (tags.map Tag.WriteTo).flatten := by
    rw [drop_split tl 20 2 22 (by norm_num), h20, drop_len_app _ _ _ (u16le_length port)]
  have h26 : tl.drop 26 = (tags.map Tag.WriteTo).flatten := by
    rw [drop_split tl 22 4 26 (by norm_num), h22,
      drop_len_app _ _ _ (u32le_length tags.length)]
  have e1 : tl.take 16 = uid := by
    rw [htl]; exact take_len_app _ _ _ hU
  have e2 : (tl.drop 16).take 4 = u32le cid := by
    rw [h16]; exact take_len_app _ _ _ (u32le_length cid)
  have e3 : (tl.drop 20).take 2 = u16le port := by
    rw [h20]; exact take_len_app _ _ _ (u16le_length port)
  have e4 : (tl.drop 22).take 4 = u32le tags.length := by
    rw [h22]; exact take_len_app _ _ _ (u32le_length tags.length)
  have hrt := readTagsInto_spec tags hT [] []
  rw [List.append_nil] at hrt
  simp only [List.nil_append] at hrt
  unfold LoginMessage.Decode
  rw [Header.Decode_frame_lt p (1 + tl.length) MessageLoginRequest tl (by omega)]
  simp only [frame_length, frame_getD5, frame_slice6, frame_slice22, frame_slice26,
    frame_slice28, frame_drop32, HeaderLength, LoginMessage.zero]
  rw [if_neg (by omega), if_neg (by simp [MessageLoginRequest])]
  simp only [e1, e2, e3, e4, h26, leVal_u32le, leVal_u16le, Nat.mod_eq_of_lt hC,
    Nat.mod_eq_of_lt hP, Nat.mod_eq_of_lt hTN, hrt]
  simp only [Prod.mk.injEq, LoginMessage.mk.injEq, Header.mk.injEq, and_true, true_and]
  omega

/-! ### Round trip: ServerIdentMessage -/

/-- Declared domain of a `ServerIdentMessage`: 16-byte hash, fields within
their declared widths, well-formed tags, and a header satisfying the
header invariant with a payload length that fits its `uint32` field. -/
def ServerIdentMessage.WF (m : ServerIdentMessage) : Prop :=
  m.Hash.length = 16 ∧ m.IP < 4294967296 ∧ m.Port < 65536 ∧
  m.Tags.length < 4294967296 ∧ (∀ t ∈ m.Tags, t.WF) ∧
  m.Header.size = m.Encode.length - HeaderLength ∧
  m.Encode.length - HeaderLength < 4294967296

instance : ∀ m : ServerIdentMessage, Decidable (ServerIdentMessage.WF m) := fun m => by
  unfold ServerIdentMessage.WF; infer_instance

theorem ServerIdentMessage.decode_encode_server_ident (m : ServerIdentMessage) (h : m.WF)
    (hmin : 34 ≤ m.Encode.length) :
    ServerIdentMessage.Decode .zero m.Encode = (m, none) := by
  obtain ⟨hU0, hC0, hP0, hTN0, hT0, hS0, hLt0⟩ := h
  obtain ⟨⟨p, sz⟩, hash, ip, port, tags⟩ := m
  have hU : hash.length = 16 := hU0
  have hC : ip < 4294967296 := hC0
  have hP : port < 65536 := hP0
  have hTN : tags.length < 4294967296 := hTN0
  have hT : ∀ t ∈ tags, t.WF := hT0
  have hassoc : hash ++ u32le ip ++ u16le port ++ u32le tags.length ++
      (tags.map Tag.WriteTo).flatten
      = hash ++ (u32le ip ++ (u16le port ++ (u32le tags.length ++
          (tags.map Tag.WriteTo).flatten))) := by
    simp [List.append_assoc]
  have hblen : (hash ++ u32le ip ++ u16le port ++ u32le tags.length ++
      (tags.map Tag.WriteTo).flatten).length
      = 26 + ((tags.map Tag.WriteTo).flatten).length := by
    simp [List.length_append, hU, u32le, u16le]
    omega
  have hSz : sz = 27 + ((tags.map Tag.WriteTo).flatten).length := by
    rw [ServerIdentMessage.encode_eq_server_ident] at hS0
    simp only [frame_length, hblen, HeaderLength] at hS0
    omega
  have hLt : 27 + ((tags.map Tag.WriteTo).flatten).length < 4294967296 := by
    rw [ServerIdentMessage.encode_eq_server_ident] at hLt0
    simp only [frame_length, hblen, HeaderLength] at hLt0
    omega
  rw [ServerIdentMessage.encode_eq_server_ident] at hmin
  simp only [frame_length, hblen] at hmin
  rw [ServerIdentMessage.encode_eq_server_ident, hassoc]
  set tl := hash ++ (u32le ip ++ (u16le port ++ (u32le tags.length ++
      (tags.map Tag.WriteTo).flatten))) with htl
  have hlen : tl.length = 26 + ((tags.map Tag.WriteTo).flatten).length := by
    rw [htl]
    simp [List.length_append, hU, u32le, u16le]
    omega
  have h16 : tl.drop 16 = u32le ip ++ (u16le port ++ (u32le tags.length ++
      (tags.map Tag.WriteTo).flatten)) := by
    rw [htl]; exact drop_len_app _ _ _ hU
  have h20 : tl.drop 20 = u16le port ++ (u32le tags.length ++
      (tags.map Tag.WriteTo).flatten) := by
    rw [drop_split tl 16 4 20 (by norm_num), h16, drop_len_app _ _ _ (u32le_length ip)]
  have h22 : tl.drop 22 = u32le tags.length ++ (tags.map Tag.WriteTo).flatten := by
    rw [drop_split tl 20 2 22 (by norm_num), h20, drop_len_app _ _ _ (u16le_length port)]
  have h26 : tl.drop 26 = (tags.map Tag.WriteTo).flatten := by
    rw [drop_split tl 22 4 26 (by norm_num), h22,
      drop_len_app _ _ _ (u32le_length tags.length)]
  have e1 : tl.take 16 = hash := by
    rw [htl]; exact take_len_app _ _ _ hU
  have e2 : (tl.drop 16).take 4 = u32le ip := by
    rw [h16]; exact take_len_app _ _ _ (u32le_length ip)
  have e3 : (tl.drop 20).take 2 = u16le port := by
    rw [h20]; exact take_len_app _ _ _ (u16le_length port)
  have e4 : (tl.drop 22).take 4 = u32le tags.length := by
    rw [h22]; exact take_len_app _ _ _ (u32le_length tags.length)
  have hrt := readTagsInto_spec tags hT [] []
  rw [List.append_nil] at hrt
  simp only [List.nil_append] at hrt
  unfold ServerIdentMessage.Decode
  rw [Header.Decode_frame_lt p (1 + tl.length) MessageServerIdent tl (by omega)]
  simp only [frame_length, frame_getD5, frame_slice6, frame_slice22, frame_slice26,
    frame_slice28, frame_drop32, HeaderLength, ServerIdentMessage.zero]
  rw [if_neg (by omega), if_neg (by simp [MessageServerIdent])]
  simp only [e1, e2, e3, e4, h26, leVal_u32le, leVal_u16le, Nat.mod_eq_of_lt hC,
    Nat.mod_eq_of_lt hP, Nat.mod_eq_of_lt hTN, hrt]
  simp only [Prod.mk.injEq, ServerIdentMessage.mk.injEq, Header.mk.injEq, and_true,
    true_and]
  omega

/-! ### Round trip: OfferFilesMessage -/

/-- Declared domain of an `OfferFilesMessage`: the file count fits its
`uint32` field, all file entries are well formed, and the header
satisfies the header invariant with a payload length that fits. -/
def OfferFilesMessage.WF (m : OfferFilesMessage) : Prop :=
  m.Files.length < 4294967296 ∧ (∀ f ∈ m.Files, f.WF) ∧
  m.Header.size = m.Encode.length - HeaderLength ∧
  m.Encode.length - HeaderLength < 4294967296

instance : ∀ m : OfferFilesMessage, Decidable (OfferFilesMessage.WF m) := fun m => by
  unfold OfferFilesMessage.WF; infer_instance

theorem OfferFilesMessage.decode_encode_offer_files (m : OfferFilesMessage) (h : m.WF) :
    OfferFilesMessage.Decode .zero m.Encode = (m, none) := by
  obtain ⟨hFN0, hF0, hS0, hLt0⟩ := h
  obtain ⟨⟨p, sz⟩, files⟩ := m
  have hFN : files.length < 4294967296 := hFN0
  have hF : ∀ f ∈ files, f.WF := hF0
  have hblen : (u32le files.length ++ (files.map File.WriteTo).flatten).length
      = 4 + ((files.map File.WriteTo).flatten).length := by
    simp [List.length_append, u32le]
    omega
  have hSz : sz = 5 + ((files.map File.WriteTo).flatten).length := by
    rw [OfferFilesMessage.encode_eq_offer_files] at hS0
    simp only [frame_length, hblen, HeaderLength] at hS0
    omega
  have hLt : 5 + ((files.map File.WriteTo).flatten).length < 4294967296 := by
    rw [OfferFilesMessage.encode_eq_offer_files] at hLt0
    simp only [frame_length, hblen, HeaderLength] at hLt0
    omega
  rw [OfferFilesMessage.encode_eq_offer_files]
  set tl := u32le files.length ++ (files.map File.WriteTo).flatten with htl
  have hlen : tl.length = 4 + ((files.map File.WriteTo).flatten).length := by
    rw [htl]; exact hblen
  have e1 : tl.take 4 = u32le files.length := by
    rw [htl]; exact take_len_app _ _ _ (u32le_length files.length)
  have h4 : tl.drop 4 = (files.map File.WriteTo).flatten := by
    rw [htl]; exact drop_len_app _ _ _ (u32le_length files.length)
  have hrf := readFilesInto_spec files hF [] []
  rw [List.append_nil] at hrf
  simp only [List.nil_append] at hrf
  unfold OfferFilesMessage.Decode
  rw [Header.Decode_frame_lt p (1 + tl.length) MessageOfferFiles tl (by omega)]
  simp only [frame_length, frame_getD5, frame_slice6, frame_drop10, HeaderLength,
    OfferFilesMessage.zero]
  rw [if_neg (by omega), if_neg (by simp [MessageOfferFiles])]
  simp only [e1, h4, leVal_u32le, Nat.mod_eq_of_lt hFN, hrf]
  simp only [Prod.mk.injEq, OfferFilesMessage.mk.injEq, Header.mk.injEq, and_true,
    true_and]
  omega

/-! ### Round trip: ServerListMessage -/

/-- One encoded server descriptor is 6 bytes. -/
theorem addrBytes_length (a : Option TCPAddr) (h : slotWF a) : (addrBytes a).length = 6 := by
  cases a with
  | none => rfl
  | some t =>
    obtain ⟨hip, _⟩ := h
    simp [addrBytes, u16le, List.length_append, hip]

/-- The encoded entry block of a well-formed server list is 6 bytes per
entry. -/
theorem flatten_addrBytes_length (addrs : List (Option TCPAddr))
    (h : ∀ a ∈ addrs, slotWF a) :
    ((addrs.map addrBytes).flatten).length = 6 * addrs.length := by
  induction addrs with
  | nil => simp
  | cons a addrs ih =>
    simp only [List.map_cons, List.flatten_cons, List.length_append,
      addrBytes_length a (h a (by simp)), ih (fun u hu => h u (by simp [hu])),
      List.length_cons]
    ring

/-- Declared domain of a `ServerListMessage`: at most 255 entries (the
count is a single byte), every slot present and well formed, and a header
satisfying the header invariant. -/
def ServerListMessage.WF (m : ServerListMessage) : Prop :=
  m.Servers.length < 256 ∧ (∀ a ∈ m.Servers, slotWF a) ∧
  m.Header.size = m.Encode.length - HeaderLength

instance : ∀ m : ServerListMessage, Decidable (ServerListMessage.WF m) := fun m => by
  unfold ServerListMessage.WF; infer_instance

theorem ServerListMessage.decode_encode_server_list (m : ServerListMessage) (h : m.WF) :
    ServerListMessage.Decode .zero m.Encode = (m, none) := by
  obtain ⟨hN0, hA0, hS0⟩ := h
  obtain ⟨⟨p, sz⟩, servers⟩ := m
  have hN : servers.length < 256 := hN0
  have hA : ∀ a ∈ servers, slotWF a := hA0
  have hmod : servers.length % 256 = servers.length := Nat.mod_eq_of_lt hN
  have hflat : ((servers.map addrBytes).flatten).length = 6 * servers.length :=
    flatten_addrBytes_length servers hA
  have hblen : ((servers.length % 256) :: (servers.map addrBytes).flatten).length
      = 1 + 6 * servers.length := by
    simp [List.length_cons, hflat]
    omega
  have hSz : sz = 2 + 6 * servers.length := by
    rw [ServerListMessage.encode_eq_server_list] at hS0
    simp only [frame_length, hblen, HeaderLength] at hS0
    omega
  rw [ServerListMessage.encode_eq_server_list]
  simp only [hmod, hblen]
  set tl := servers.length :: (servers.map addrBytes).flatten with htl
  have hlen : tl.length = 1 + 6 * servers.length := by
    rw [htl]
    simp [List.length_cons, hflat]
    omega
  have hd7 : tl.drop 1 = (servers.map addrBytes).flatten := by
    rw [htl]; rfl
  have hcnt : tl.getD 0 0 = servers.length := by
    rw [htl]; rfl
  have hra : readAddrs (p :: (u32le (1 + tl.length) ++
      MessageServerList :: tl)) 7 servers.length = servers := by
    apply readAddrs_spec servers hA _ []
    rw [List.append_nil, frame_drop7, hd7]
  unfold ServerListMessage.Decode
  rw [Header.Decode_frame_lt p (1 + tl.length) MessageServerList tl (by omega)]
  simp only [frame_length, frame_getD5, frame_getD6, HeaderLength,
    ServerListMessage.zero]
  rw [if_neg (by omega), if_neg (by simp [MessageServerList])]
  simp only [hcnt]
  rw [if_neg (by omega)]
  simp only [hra, List.nil_append]
  simp only [Prod.mk.injEq, ServerListMessage.mk.injEq, Header.mk.injEq, and_true,
    true_and]
  omega

/-! ### Header decode inversion -/

theorem Header.Decode_error_inv (data : List Nat) (e : Err)
    (h : Header.Decode data = .error e) : e = .ShortBuffer ∧ data.length < 5 := by
  unfold Header.Decode at h
  split at h
  next hlt =>
    simp only [Except.error.injEq] at h
    exact ⟨h.symm, hlt⟩
  next hge => simp at h

theorem Header.Decode_ok_inv (data : List Nat) (hd : Header)
    (h : Header.Decode data = .ok hd) :
    5 ≤ data.length ∧ hd.protocol = data.getD 0 0 ∧ hd.size = leVal (slice data 1 4) := by
  unfold Header.Decode at h
  split at h
  next hlt => simp at h
  next hge =>
    simp only [Except.ok.injEq] at h
    subst h
    exact ⟨by omega, rfl, rfl⟩

/-! ### Pre-check predicates (header parse, length validation, discriminant) -/

/-- The initial checks of `LoginMessage.Decode`, mirrored verbatim. -/
def LoginMessage.preOK (data : List Nat) : Prop :=
  5 ≤ data.length ∧
  ¬ (data.length < HeaderLength + leVal (slice data 1 4) ∨
     data.length < HeaderLength + (1 + 16 + 4 + 2 + 4)) ∧
  data.getD 5 0 = MessageLoginRequest

/-- The initial checks of `ServerMessage.Decode`, mirrored verbatim. -/
def ServerMessage.preOK (data : List Nat) : Prop :=
  5 ≤ data.length ∧
  ¬ (data.length < HeaderLength + leVal (slice data 1 4) ∨
     data.length < HeaderLength + 3) ∧
  data.getD 5 0 = MessageServerMessage

/-- The initial checks of `IDChangeMessage.Decode`, mirrored verbatim. -/
def IDChangeMessage.preOK (data : List Nat) : Prop :=
  5 ≤ data.length ∧
  ¬ (data.length < HeaderLength + leVal (slice data 1 4) ∨
     data.length < HeaderLength + 9) ∧
  data.getD 5 0 = MessageIDChange

/-- The initial checks of `OfferFilesMessage.Decode`, mirrored verbatim. -/
def OfferFilesMessage.preOK (data : List Nat) : Prop :=
  5 ≤ data.length ∧
  ¬ (data.length < HeaderLength + leVal (slice data 1 4) ∨
     data.length < HeaderLength + 5) ∧
  data.getD 5 0 = MessageOfferFiles

/-- The initial checks of `GetServerListMessage.Decode`, mirrored verbatim. -/
def GetServerListMessage.preOK (data : List Nat) : Prop :=
  5 ≤ data.length ∧
  ¬ (data.length < HeaderLength + leVal (slice data 1 4) ∨
     data.length < HeaderLength + 1) ∧
  data.getD 5 0 = MessageGetServerList

/-- The initial checks of `ServerListMessage.Decode`, mirrored verbatim. -/
def ServerListMessage.preOK (data : List Nat) : Prop :=
  5 ≤ data.length ∧
  ¬ (data.length < HeaderLength + leVal (slice data 1 4) ∨
     data.length < HeaderLength + 2) ∧
  data.getD 5 0 = MessageServerList

/-- The initial checks of `ServerStatusMessage.Decode`, mirrored verbatim. -/
def ServerStatusMessage.preOK (data : List Nat) : Prop :=
  5 ≤ data.length ∧
  ¬ (data.length < HeaderLength + leVal (slice data 1 4) ∨
     data.length < HeaderLength + 9) ∧
  data.getD 5 0 = MessageServerStatus

/-- The initial checks of `ServerIdentMessage.Decode`, mirrored verbatim:
the first length bound reads the receiver's previous header size. -/
def ServerIdentMessage.preOK (m0 : ServerIdentMessage) (data : List Nat) : Prop :=
  5 ≤ data.length ∧
  ¬ (data.length < HeaderLength + m0.Header.size ∨
     data.length < HeaderLength + 29) ∧
  data.getD 5 0 = MessageServerIdent

instance : ∀ d, Decidable (LoginMessage.preOK d) := fun d => by
  unfold LoginMessage.preOK; infer_instance

instance : ∀ d, Decidable (ServerMessage.preOK d) := fun d => by
  unfold ServerMessage.preOK; infer_instance

instance : ∀ d, Decidable (IDChangeMessage.preOK d) := fun d => by
  unfold IDChangeMessage.preOK; infer_instance

instance : ∀ d, Decidable (OfferFilesMessage.preOK d) := fun d => by
  unfold OfferFilesMessage.preOK; infer_instance

instance : ∀ d, Decidable (GetServerListMessage.preOK d) := fun d => by
  unfold GetServerListMessage.preOK; infer_instance

instance : ∀ d, Decidable (ServerListMessage.preOK d) := fun d => by
  unfold ServerListMessage.preOK; infer_instance

instance : ∀ d, Decidable (ServerStatusMessage.preOK d) := fun d => by
  unfold ServerStatusMessage.preOK; infer_instance

instance : ∀ m0 d, Decidable (ServerIdentMessage.preOK m0 d) := fun m0 d => by
  unfold ServerIdentMessage.preOK; infer_instance

/-- Failing any of the initial checks leaves a `LoginMessage` receiver
unchanged and reports an error. -/
theorem LoginMessage.pre_fail_login (m0 : LoginMessage) (data : List Nat)
    (hpre : ¬ LoginMessage.preOK data) :
    (LoginMessage.Decode m0 data).1 = m0 ∧
    ((LoginMessage.Decode m0 data).2).isSome = true := by
  unfold LoginMessage.Decode
  split
  next e heq => exact ⟨rfl, rfl⟩
  next hd heq =>
    obtain ⟨hge, hp, hsz⟩ := Header.Decode_ok_inv data hd heq
    split
    next hcond => exact ⟨rfl, rfl⟩
    next hcond =>
      split
      next hty => exact ⟨rfl, rfl⟩
      next hty =>
        exact absurd ⟨hge, by rw [← hsz]; exact hcond, not_not.mp hty⟩ hpre

/-- Failing any of the initial checks leaves a `ServerMessage` receiver
unchanged and reports an error. -/
theorem ServerMessage.pre_fail_server_msg (m0 : ServerMessage) (data : List Nat)
    (hpre : ¬ ServerMessage.preOK data) :
    (ServerMessage.Decode m0 data).1 = m0 ∧
    ((ServerMessage.Decode m0 data).2).isSome = true := by
  unfold ServerMessage.Decode
  split
  next e heq => exact ⟨rfl, rfl⟩
  next hd heq =>
    obtain ⟨hge, hp, hsz⟩ := Header.Decode_ok_inv data hd heq
    split
    next hcond => exact ⟨rfl, rfl⟩
    next hcond =>
      split
      next hty => exact ⟨rfl, rfl⟩
      next hty =>
        exact absurd ⟨hge, by rw [← hsz]; exact hcond, not_not.mp hty⟩ hpre

/-- Failing any of the initial checks leaves a `IDChangeMessage` receiver
unchanged and reports an error. -/
theorem IDChangeMessage.pre_fail_id_change (m0 : IDChangeMessage) (data : List Nat)
    (hpre : ¬ IDChangeMessage.preOK data) :
    (IDChangeMessage.Decode m0 data).1 = m0 ∧
    ((IDChangeMessage.Decode m0 data).2).isSome = true := by
  unfold IDChangeMessage.Decode
  split
  next e heq => exact ⟨rfl, rfl⟩
  next hd heq =>
    obtain ⟨hge, hp, hsz⟩ := Header.Decode_ok_inv data hd heq
    split
    next hcond => exact ⟨rfl, rfl⟩
    next hcond =>
      split
      next hty => exact ⟨rfl, rfl⟩
      next hty =>
        exact absurd ⟨hge, by rw [← hsz]; exact hcond, not_not.mp hty⟩ hpre

/-- Failing any of the initial checks leaves a `OfferFilesMessage` receiver
unchanged and reports an error. -/
theorem OfferFilesMessage.pre_fail_offer_files (m0 : OfferFilesMessage) (data : List Nat)
    (hpre : ¬ OfferFilesMessage.preOK data) :
    (OfferFilesMessage.Decode m0 data).1 = m0 ∧
    ((OfferFilesMessage.Decode m0 data).2).isSome = true := by
  unfold OfferFilesMessage.Decode
  split
  next e heq => exact ⟨rfl, rfl⟩
  next hd heq =>
    obtain ⟨hge, hp, hsz⟩ := Header.Decode_ok_inv data hd heq
    split
    next hcond => exact ⟨rfl, rfl⟩
    next hcond =>
      split
      next hty => exact ⟨rfl, rfl⟩
      next hty =>
        exact absurd ⟨hge, by rw [← hsz]; exact hcond, not_not.mp hty⟩ hpre

/-- Failing any of the initial checks leaves a `GetServerListMessage` receiver
unchanged and reports an error. -/
theorem GetServerListMessage.pre_fail_get_server_list (m0 : GetServerListMessage) (data : List Nat)
    (hpre : ¬ GetServerListMessage.preOK data) :
    (GetServerListMessage.Decode m0 data).1 = m0 ∧
    ((GetServerListMessage.Decode m0 data).2).isSome = true := by
  unfold GetServerListMessage.Decode
  split
  next e heq => exact ⟨rfl, rfl⟩
  next hd heq =>
    obtain ⟨hge, hp, hsz⟩ := Header.Decode_ok_inv data hd heq
    split
    next hcond => exact ⟨rfl, rfl⟩
    next hcond =>
      split
      next hty => exact ⟨rfl, rfl⟩
      next hty =>
        exact absurd ⟨hge, by rw [← hsz]; exact hcond, not_not.mp hty⟩ hpre

/-- Failing any of the initial checks leaves a `ServerListMessage` receiver
unchanged and reports an error. -/
theorem ServerListMessage.pre_fail_server_list (m0 : ServerListMessage) (data : List Nat)
    (hpre : ¬ ServerListMessage.preOK data) :
    (ServerListMessage.Decode m0 data).1 = m0 ∧
    ((ServerListMessage.Decode m0 data).2).isSome = true := by
  unfold ServerListMessage.Decode
  split
  next e heq => exact ⟨rfl, rfl⟩
  next hd heq =>
    obtain ⟨hge, hp, hsz⟩ := Header.Decode_ok_inv data hd heq
    split
    next hcond => exact ⟨rfl, rfl⟩
    next hcond =>
      split
      next hty => exact ⟨rfl, rfl⟩
      next hty =>
        exact absurd ⟨hge, by rw [← hsz]; exact hcond, not_not.mp hty⟩ hpre

/-- Failing any of the initial checks leaves a `ServerStatusMessage` receiver
unchanged and reports an error. -/
theorem ServerStatusMessage.pre_fail_server_status (m0 : ServerStatusMessage) (data : List Nat)
    (hpre : ¬ ServerStatusMessage.preOK data) :
    (ServerStatusMessage.Decode m0 data).1 = m0 ∧
    ((ServerStatusMessage.Decode m0 data).2).isSome = true := by
  unfold ServerStatusMessage.Decode
  split
  next e heq => exact ⟨rfl, rfl⟩
  next hd heq =>
    obtain ⟨hge, hp, hsz⟩ := Header.Decode_ok_inv data hd heq
    split
    next hcond => exact ⟨rfl, rfl⟩
    next hcond =>
      split
      next hty => exact ⟨rfl, rfl⟩
      next hty =>
        exact absurd ⟨hge, by rw [← hsz]; exact hcond, not_not.mp hty⟩ hpre

/-- Failing any of the initial checks leaves a `ServerIdentMessage`
receiver unchanged and reports an error.  The length bound here is the
one the source actually performs, against the receiver's old header. -/
theorem ServerIdentMessage.pre_fail_server_ident (m0 : ServerIdentMessage) (data : List Nat)
    (hpre : ¬ ServerIdentMessage.preOK m0 data) :
    (ServerIdentMessage.Decode m0 data).1 = m0 ∧
    ((ServerIdentMessage.Decode m0 data).2).isSome = true := by
  unfold ServerIdentMessage.Decode
  split
  next e heq => exact ⟨rfl, rfl⟩
  next hd heq =>
    obtain ⟨hge, hp, hsz⟩ := Header.Decode_ok_inv data hd heq
    split
    next hcond => exact ⟨rfl, rfl⟩
    next hcond =>
      split
      next hty => exact ⟨rfl, rfl⟩
      next hty =>
        exact absurd ⟨hge, hcond, not_not.mp hty⟩ hpre

/-- Once the initial checks of `LoginMessage.Decode` pass, the error the
decode returns is exactly the error reported by the embedded tag-reading
loop: an embedded `ReadTag` failure aborts the decode and is propagated
verbatim to the caller (and `none` is returned only when the loop
succeeded). -/
theorem LoginMessage.loop_err_login (m0 : LoginMessage) (data : List Nat)
    (hpre : LoginMessage.preOK data) :
    (LoginMessage.Decode m0 data).2
      = (readTagsInto m0.Tags (leVal (slice data 28 4)) (data.drop 32)).2.2 := by
  obtain ⟨h5, hc, hty⟩ := hpre
  unfold LoginMessage.Decode
  split
  next e heq =>
    obtain ⟨-, hl⟩ := Header.Decode_error_inv data e heq
    exact absurd hl (by omega)
  next hd heq =>
    obtain ⟨hge, hp, hsz⟩ := Header.Decode_ok_inv data hd heq
    split
    next hcond =>
      rw [hsz] at hcond
      exact absurd hcond hc
    next hcond =>
      split
      next htyneq => exact absurd hty htyneq
      next htyneq =>
        rcases hrt : readTagsInto m0.Tags (leVal (slice data 28 4)) (data.drop 32)
          with ⟨tags, rest, e⟩
        simp only [hrt]

/-- Once the initial checks of `OfferFilesMessage.Decode` pass, the error
the decode returns is exactly the error reported by the embedded
file-reading loop: an embedded `ReadFile` (or nested tag) failure aborts
the decode and is propagated verbatim to the caller. -/
theorem OfferFilesMessage.loop_err_offer_files (m0 : OfferFilesMessage) (data : List Nat)
    (hpre : OfferFilesMessage.preOK data) :
    (OfferFilesMessage.Decode m0 data).2
      = (readFilesInto m0.Files (leVal (slice data 6 4)) (data.drop 10)).2.2 := by
  obtain ⟨h5, hc, hty⟩ := hpre
  unfold OfferFilesMessage.Decode
  split
  next e heq =>
    obtain ⟨-, hl⟩ := Header.Decode_error_inv data e heq
    exact absurd hl (by omega)
  next hd heq =>
    obtain ⟨hge, hp, hsz⟩ := Header.Decode_ok_inv data hd heq
    split
    next hcond =>
      rw [hsz] at hcond
      exact absurd hcond hc
    next hcond =>
      split
      next htyneq => exact absurd hty htyneq
      next htyneq =>
        rcases hrt : readFilesInto m0.Files (leVal (slice data 6 4)) (data.drop 10)
          with ⟨files, rest, e⟩
        simp only [hrt]

/-- Once the initial checks of `ServerIdentMessage.Decode` pass, the
error the decode returns is exactly the error reported by the embedded
tag-reading loop: an embedded `ReadTag` failure aborts the decode and is
propagated verbatim to the caller. -/
theorem ServerIdentMessage.loop_err_server_ident (m0 : ServerIdentMessage)
    (data : List Nat) (hpre : ServerIdentMessage.preOK m0 data) :
    (ServerIdentMessage.Decode m0 data).2
      = (readTagsInto m0.Tags (leVal (slice data 28 4)) (data.drop 32)).2.2 := by
  obtain ⟨h5, hc, hty⟩ := hpre
  unfold ServerIdentMessage.Decode
  split
  next e heq =>
    obtain ⟨-, hl⟩ := Header.Decode_error_inv data e heq
    exact absurd hl (by omega)
  next hd heq =>
    split
    next hcond => exact absurd hcond hc
    next hcond =>
      split
      next htyneq => exact absurd hty htyneq
      next htyneq =>
        rcases hrt : readTagsInto m0.Tags (leVal (slice data 28 4)) (data.drop 32)
          with ⟨tags, rest, e⟩
        simp only [hrt]

/-- A buffer shorter than the static minimum of `LoginMessage.Decode`
fails with `ShortBuffer`, receiver untouched. -/
theorem LoginMessage.short_fail_login (m0 : LoginMessage) (data : List Nat)
    (h : data.length < 32) :
    LoginMessage.Decode m0 data = (m0, some .ShortBuffer) := by
  unfold LoginMessage.Decode
  split
  next e heq =>
    obtain ⟨he, -⟩ := Header.Decode_error_inv data e heq
    rw [he]
  next hd heq =>
    split
    next hcond => rfl
    next hcond =>
      exfalso
      simp only [HeaderLength] at hcond
      omega

/-- A buffer shorter than the static minimum of `ServerMessage.Decode`
fails with `ShortBuffer`, receiver untouched. -/
theorem ServerMessage.short_fail_server_msg (m0 : ServerMessage) (data : List Nat)
    (h : data.length < 8) :
    ServerMessage.Decode m0 data = (m0, some .ShortBuffer) := by
  unfold ServerMessage.Decode
  split
  next e heq =>
    obtain ⟨he, -⟩ := Header.Decode_error_inv data e heq
    rw [he]
  next hd heq =>
    split
    next hcond => rfl
    next hcond =>
      exfalso
      simp only [HeaderLength] at hcond
      omega

/-- A buffer shorter than the static minimum of `IDChangeMessage.Decode`
fails with `ShortBuffer`, receiver untouched. -/
theorem IDChangeMessage.short_fail_id_change (m0 : IDChangeMessage) (data : List Nat)
    (h : data.length < 14) :
    IDChangeMessage.Decode m0 data = (m0, some .ShortBuffer) := by
  unfold IDChangeMessage.Decode
  split
  next e heq =>
    obtain ⟨he, -⟩ := Header.Decode_error_inv data e heq
    rw [he]
  next hd heq =>
    split
    next hcond => rfl
    next hcond =>
      exfalso
      simp only [HeaderLength] at hcond
      omega

/-- A buffer shorter than the static minimum of `OfferFilesMessage.Decode`
fails with `ShortBuffer`, receiver untouched. -/
theorem OfferFilesMessage.short_fail_offer_files (m0 : OfferFilesMessage) (data : List Nat)
    (h : data.length < 10) :
    OfferFilesMessage.Decode m0 data = (m0, some .ShortBuffer) := by
  unfold OfferFilesMessage.Decode
  split
  next e heq =>
    obtain ⟨he, -⟩ := Header.Decode_error_inv data e heq
    rw [he]
  next hd heq =>
    split
    next hcond => rfl
    next hcond =>
      exfalso
      simp only [HeaderLength] at hcond
      omega

/-- A buffer shorter than the static minimum of `GetServerListMessage.Decode`
fails with `ShortBuffer`, receiver untouched. -/
theorem GetServerListMessage.short_fail_get_server_list (m0 : GetServerListMessage) (data : List Nat)
    (h : data.length < 6) :
    GetServerListMessage.Decode m0 data = (m0, some .ShortBuffer) := by
  unfold GetServerListMessage.Decode
  split
  next e heq =>
    obtain ⟨he, -⟩ := Header.Decode_error_inv data e heq
    rw [he]
  next hd heq =>
    split
    next hcond => rfl
    next hcond =>
      exfalso
      simp only [HeaderLength] at hcond
      omega

/-- A buffer shorter than the static minimum of `ServerListMessage.Decode`
fails with `ShortBuffer`, receiver untouched. -/
theorem ServerListMessage.short_fail_server_list (m0 : ServerListMessage) (data : List Nat)
    (h : data.length < 7) :
    ServerListMessage.Decode m0 data = (m0, some .ShortBuffer) := by
  unfold ServerListMessage.Decode
  split
  next e heq =>
    obtain ⟨he, -⟩ := Header.Decode_error_inv data e heq
    rw [he]
  next hd heq =>
    split
    next hcond => rfl
    next hcond =>
      exfalso
      simp only [HeaderLength] at hcond
      omega

/-- A buffer shorter than the static minimum of `ServerStatusMessage.Decode`
fails with `ShortBuffer`, receiver untouched. -/
theorem ServerStatusMessage.short_fail_server_status (m0 : ServerStatusMessage) (data : List Nat)
    (h : data.length < 14) :
    ServerStatusMessage.Decode m0 data = (m0, some .ShortBuffer) := by
  unfold ServerStatusMessage.Decode
  split
  next e heq =>
    obtain ⟨he, -⟩ := Header.Decode_error_inv data e heq
    rw [he]
  next hd heq =>
    split
    next hcond => rfl
    next hcond =>
      exfalso
      simp only [HeaderLength] at hcond
      omega

/-- A buffer shorter than the static minimum of `ServerIdentMessage.Decode`
fails with `ShortBuffer`, receiver untouched. -/
theorem ServerIdentMessage.short_fail_server_ident (m0 : ServerIdentMessage) (data : List Nat)
    (h : data.length < 34) :
    ServerIdentMessage.Decode m0 data = (m0, some .ShortBuffer) := by
  unfold ServerIdentMessage.Decode
  split
  next e heq =>
    obtain ⟨he, -⟩ := Header.Decode_error_inv data e heq
    rw [he]
  next hd heq =>
    split
    next hcond => rfl
    next hcond =>
      exfalso
      simp only [HeaderLength] at hcond
      omega

/-- A buffer meeting the length checks of `LoginMessage.Decode` whose
discriminant byte is another variant's fails with `WrongMessageType`. -/
theorem LoginMessage.wrongtype_fail_login (m0 : LoginMessage) (data : List Nat) (d : Nat)
    (hlen1 : HeaderLength + leVal (slice data 1 4) ≤ data.length)
    (hlen2 : 32 ≤ data.length)
    (hd5 : data.getD 5 0 = d)
    (_hmem : d ∈ [MessageLoginRequest, MessageServerMessage, MessageIDChange,
      MessageOfferFiles, MessageGetServerList, MessageServerList,
      MessageServerStatus, MessageServerIdent])
    (hne : d ≠ MessageLoginRequest) :
    LoginMessage.Decode m0 data = (m0, some .WrongMessageType) := by
  unfold LoginMessage.Decode
  split
  next e heq =>
    obtain ⟨-, hl⟩ := Header.Decode_error_inv data e heq
    exfalso
    omega
  next hd heq =>
    obtain ⟨hge, hp, hsz⟩ := Header.Decode_ok_inv data hd heq
    split
    next hcond =>
      exfalso
      rw [hsz] at hcond
      simp only [HeaderLength] at hcond hlen1 hlen2
      omega
    next hcond =>
      split
      next hty => rfl
      next hty =>
        exfalso
        rw [hd5] at hty
        exact hne (not_not.mp hty)

/-- A buffer meeting the length checks of `ServerMessage.Decode` whose
discriminant byte is another variant's fails with `WrongMessageType`. -/
theorem ServerMessage.wrongtype_fail_server_msg (m0 : ServerMessage) (data : List Nat) (d : Nat)
    (hlen1 : HeaderLength + leVal (slice data 1 4) ≤ data.length)
    (hlen2 : 8 ≤ data.length)
    (hd5 : data.getD 5 0 = d)
    (_hmem : d ∈ [MessageLoginRequest, MessageServerMessage, MessageIDChange,
      MessageOfferFiles, MessageGetServerList, MessageServerList,
      MessageServerStatus, MessageServerIdent])
    (hne : d ≠ MessageServerMessage) :
    ServerMessage.Decode m0 data = (m0, some .WrongMessageType) := by
  unfold ServerMessage.Decode
  split
  next e heq =>
    obtain ⟨-, hl⟩ := Header.Decode_error_inv data e heq
    exfalso
    omega
  next hd heq =>
    obtain ⟨hge, hp, hsz⟩ := Header.Decode_ok_inv data hd heq
    split
    next hcond =>
      exfalso
      rw [hsz] at hcond
      simp only [HeaderLength] at hcond hlen1 hlen2
      omega
    next hcond =>
      split
      next hty => rfl
      next hty =>
        exfalso
        rw [hd5] at hty
        exact hne (not_not.mp hty)

/-- A buffer meeting the length checks of `IDChangeMessage.Decode` whose
discriminant byte is another variant's fails with `WrongMessageType`. -/
theorem IDChangeMessage.wrongtype_fail_id_change (m0 : IDChangeMessage) (data : List Nat) (d : Nat)
    (hlen1 : HeaderLength + leVal (slice data 1 4) ≤ data.length)
    (hlen2 : 14 ≤ data.length)
    (hd5 : data.getD 5 0 = d)
    (_hmem : d ∈ [MessageLoginRequest, MessageServerMessage, MessageIDChange,
      MessageOfferFiles, MessageGetServerList, MessageServerList,
      MessageServerStatus, MessageServerIdent])
    (hne : d ≠ MessageIDChange) :
    IDChangeMessage.Decode m0 data = (m0, some .WrongMessageType) := by
  unfold IDChangeMessage.Decode
  split
  next e heq =>
    obtain ⟨-, hl⟩ := Header.Decode_error_inv data e heq
    exfalso
    omega
  next hd heq =>
    obtain ⟨hge, hp, hsz⟩ := Header.Decode_ok_inv data hd heq
    split
    next hcond =>
      exfalso
      rw [hsz] at hcond
      simp only [HeaderLength] at hcond hlen1 hlen2
      omega
    next hcond =>
      split
      next hty => rfl
      next hty =>
        exfalso
        rw [hd5] at hty
        exact hne (not_not.mp hty)

/-- A buffer meeting the length checks of `OfferFilesMessage.Decode` whose
discriminant byte is another variant's fails with `WrongMessageType`. -/
theorem OfferFilesMessage.wrongtype_fail_offer_files (m0 : OfferFilesMessage) (data : List Nat) (d : Nat)
    (hlen1 : HeaderLength + leVal (slice data 1 4) ≤ data.length)
    (hlen2 : 10 ≤ data.length)
    (hd5 : data.getD 5 0 = d)
    (_hmem : d ∈ [MessageLoginRequest, MessageServerMessage, MessageIDChange,
      MessageOfferFiles, MessageGetServerList, MessageServerList,
      MessageServerStatus, MessageServerIdent])
    (hne : d ≠ MessageOfferFiles) :
    OfferFilesMessage.Decode m0 data = (m0, some .WrongMessageType) := by
  unfold OfferFilesMessage.Decode
  split
  next e heq =>
    obtain ⟨-, hl⟩ := Header.Decode_error_inv data e heq
    exfalso
    omega
  next hd heq =>
    obtain ⟨hge, hp, hsz⟩ := Header.Decode_ok_inv data hd heq
    split
    next hcond =>
      exfalso
      rw [hsz] at hcond
      simp only [HeaderLength] at hcond hlen1 hlen2
      omega
    next hcond =>
      split
      next hty => rfl
      next hty =>
        exfalso
        rw [hd5] at hty
        exact hne (not_not.mp hty)

/-- A buffer meeting the length checks of `GetServerListMessage.Decode` whose
discriminant byte is another variant's fails with `WrongMessageType`. -/
theorem GetServerListMessage.wrongtype_fail_get_server_list (m0 : GetServerListMessage) (data : List Nat) (d : Nat)
    (hlen1 : HeaderLength + leVal (slice data 1 4) ≤ data.length)
    (hlen2 : 6 ≤ data.length)
    (hd5 : data.getD 5 0 = d)
    (_hmem : d ∈ [MessageLoginRequest, MessageServerMessage, MessageIDChange,
      MessageOfferFiles, MessageGetServerList, MessageServerList,
      MessageServerStatus, MessageServerIdent])
    (hne : d ≠ MessageGetServerList) :
    GetServerListMessage.Decode m0 data = (m0, some .WrongMessageType) := by
  unfold GetServerListMessage.Decode
  split
  next e heq =>
    obtain ⟨-, hl⟩ := Header.Decode_error_inv data e heq
    exfalso
    omega
  next hd heq =>
    obtain ⟨hge, hp, hsz⟩ := Header.Decode_ok_inv data hd heq
    split
    next hcond =>
      exfalso
      rw [hsz] at hcond
      simp only [HeaderLength] at hcond hlen1 hlen2
      omega
    next hcond =>
      split
      next hty => rfl
      next hty =>
        exfalso
        rw [hd5] at hty
        exact hne (not_not.mp hty)

/-- A buffer meeting the length checks of `ServerListMessage.Decode` whose
discriminant byte is another variant's fails with `WrongMessageType`. -/
theorem ServerListMessage.wrongtype_fail_server_list (m0 : ServerListMessage) (data : List Nat) (d : Nat)
    (hlen1 : HeaderLength + leVal (slice data 1 4) ≤ data.length)
    (hlen2 : 7 ≤ data.length)
    (hd5 : data.getD 5 0 = d)
    (_hmem : d ∈ [MessageLoginRequest, MessageServerMessage, MessageIDChange,
      MessageOfferFiles, MessageGetServerList, MessageServerList,
      MessageServerStatus, MessageServerIdent])
    (hne : d ≠ MessageServerList) :
    ServerListMessage.Decode m0 data = (m0, some .WrongMessageType) := by
  unfold ServerListMessage.Decode
  split
  next e heq =>
    obtain ⟨-, hl⟩ := Header.Decode_error_inv data e heq
    exfalso
    omega
  next hd heq =>
    obtain ⟨hge, hp, hsz⟩ := Header.Decode_ok_inv data hd heq
    split
    next hcond =>
      exfalso
      rw [hsz] at hcond
      simp only [HeaderLength] at hcond hlen1 hlen2
      omega
    next hcond =>
      split
      next hty => rfl
      next hty =>
        exfalso
        rw [hd5] at hty
        exact hne (not_not.mp hty)

/-- A buffer meeting the length checks of `ServerStatusMessage.Decode` whose
discriminant byte is another variant's fails with `WrongMessageType`. -/
theorem ServerStatusMessage.wrongtype_fail_server_status (m0 : ServerStatusMessage) (data : List Nat) (d : Nat)
    (hlen1 : HeaderLength + leVal (slice data 1 4) ≤ data.length)
    (hlen2 : 14 ≤ data.length)
    (hd5 : data.getD 5 0 = d)
    (_hmem : d ∈ [MessageLoginRequest, MessageServerMessage, MessageIDChange,
      MessageOfferFiles, MessageGetServerList, MessageServerList,
      MessageServerStatus, MessageServerIdent])
    (hne : d ≠ MessageServerStatus) :
    ServerStatusMessage.Decode m0 data = (m0, some .WrongMessageType) := by
  unfold ServerStatusMessage.Decode
  split
  next e heq =>
    obtain ⟨-, hl⟩ := Header.Decode_error_inv data e heq
    exfalso
    omega
  next hd heq =>
    obtain ⟨hge, hp, hsz⟩ := Header.Decode_ok_inv data hd heq
    split
    next hcond =>
      exfalso
      rw [hsz] at hcond
      simp only [HeaderLength] at hcond hlen1 hlen2
      omega
    next hcond =>
      split
      next hty => rfl
      next hty =>
        exfalso
        rw [hd5] at hty
        exact hne (not_not.mp hty)

/-- A buffer meeting the length checks of `ServerIdentMessage.Decode`
(the source checks the receiver's old header size here) whose
discriminant byte is another variant's fails with `WrongMessageType`. -/
theorem ServerIdentMessage.wrongtype_fail_server_ident (m0 : ServerIdentMessage) (data : List Nat)
    (d : Nat)
    (hlen1 : HeaderLength + m0.Header.size ≤ data.length)
    (hlen2 : 34 ≤ data.length)
    (hd5 : data.getD 5 0 = d)
    (_hmem : d ∈ [MessageLoginRequest, MessageServerMessage, MessageIDChange,
      MessageOfferFiles, MessageGetServerList, MessageServerList,
      MessageServerStatus, MessageServerIdent])
    (hne : d ≠ MessageServerIdent) :
    ServerIdentMessage.Decode m0 data = (m0, some .WrongMessageType) := by
  unfold ServerIdentMessage.Decode
  split
  next e heq =>
    obtain ⟨-, hl⟩ := Header.Decode_error_inv data e heq
    exfalso
    omega
  next hd heq =>
    split
    next hcond =>
      exfalso
      simp only [HeaderLength] at hcond hlen1 hlen2
      omega
    next hcond =>
      split
      next hty => rfl
      next hty =>
        exfalso
        rw [hd5] at hty
        exact hne (not_not.mp hty)

/-- On every encoded `ServerMessage` buffer, decoding succeeds and reads
back exactly the number of bytes declared by the 16-bit prefix — the
text truncated to its length modulo 65536. -/
theorem ServerMessage.decode_encode_take (m : ServerMessage) :
    ((ServerMessage.Decode .zero m.Encode).1).Messages
      = m.Messages.take (m.Messages.length % 65536) ∧
    (ServerMessage.Decode .zero m.Encode).2 = none := by
  obtain ⟨⟨p, sz⟩, msgs⟩ := m
  have hlen2 : (u16le msgs.length ++ msgs).length = 2 + msgs.length := by
    simp [u16le]
    omega
  rw [ServerMessage.encode_eq_server_msg]
  set tl := u16le msgs.length ++ msgs with htl
  have hm1 := Nat.mod_le (1 + tl.length) 4294967296
  have hm2 := Nat.mod_le msgs.length 65536
  have htk : tl.take 2 = u16le msgs.length := by
    rw [htl]; exact take_len_app _ _ _ (u16le_length _)
  have hdp : tl.drop 2 = msgs := by
    rw [htl]; exact drop_len_app _ _ _ (u16le_length _)
  have hlen : tl.length = 2 + msgs.length := by
    rw [htl]; exact hlen2
  unfold ServerMessage.Decode
  rw [Header.Decode_frame]
  simp only [frame_length, frame_getD5, frame_slice6, frame_slice8, HeaderLength,
    htk, hdp, leVal_u16le]
  rw [if_neg (by omega), if_neg (by simp [MessageServerMessage]), if_neg (by omega)]
  exact ⟨rfl, rfl⟩

/-! ### Sample values used by the claim witnesses -/

/-- A small well-formed numeric-key tag. -/
def sampleTag : Tag := ⟨.code 17, .u32 700⟩

/-- A small well-formed login message (one tag, encoded size 38). -/
def sampleLogin : LoginMessage := ⟨⟨227, 33⟩, List.replicate 16 1, 66051, 4662, [sampleTag]⟩

/-- A small well-formed server message ("hi"). -/
def sampleServerMsg : ServerMessage := ⟨⟨227, 5⟩, [104, 105]⟩

/-- A small well-formed id-change message. -/
def sampleIDChange : IDChangeMessage := ⟨⟨227, 9⟩, 66051, 2⟩

/-- A small well-formed file entry (one string-key tag, 33 bytes). -/
def sampleFile : File := ⟨List.replicate 16 2, 5, 80, [⟨.name [97], .str [98]⟩]⟩

/-- A small well-formed offer-files message (one file, encoded size 38). -/
def sampleOffer : OfferFilesMessage := ⟨⟨227, 38⟩, [sampleFile]⟩

/-- A well-formed get-server-list message. -/
def sampleGetSL : GetServerListMessage := ⟨⟨227, 1⟩⟩

/-- A small well-formed server list (two entries, encoded size 14). -/
def sampleServerList : ServerListMessage :=
  ⟨⟨227, 14⟩, [some ⟨[1, 2, 3, 4], 4661⟩, some ⟨[5, 6, 7, 8], 4242⟩]⟩

/-- A small well-formed server status message. -/
def sampleStatus : ServerStatusMessage := ⟨⟨227, 9⟩, 1000, 2000⟩

/-- A small well-formed server ident message (one tag, encoded size 38). -/
def sampleIdent : ServerIdentMessage :=
  ⟨⟨227, 33⟩, List.replicate 16 3, 16909060, 4661, [sampleTag]⟩

/-- The buffer of the C2 counterexample: a well-framed login request
whose declared tag count is 1 but whose tag stream is empty. -/
def c2data : List Nat :=
  [0, 27, 0, 0, 0, 1] ++ List.replicate 16 0 ++ [0, 0, 0, 0] ++ [0, 0] ++ [1, 0, 0, 0]

/-- A 34-byte server-ident frame declaring one tag whose 2-byte tag
stream is malformed (`[6, 0]`: a string-keyed tag cut off inside the key
length prefix), used by the C2 witness to exercise error propagation. -/
def c2identData : List Nat :=
  [227, 29, 0, 0, 0, 65] ++ List.replicate 16 0 ++ [0, 0, 0, 0] ++ [0, 0] ++
    [1, 0, 0, 0] ++ [6, 0]

/-- The buffer of the C3 failing input: a 34-byte server-ident frame whose
own header declares a 1000-byte payload, handed to a fresh receiver. -/
def c3data : List Nat :=
  [227, 232, 3, 0, 0, 65] ++ List.replicate 16 0 ++ [1, 2, 3, 4] ++ [0, 0] ++
    [0, 0, 0, 0] ++ [9, 9]

/-- The C4 counterexample: a server message whose text is 2^32 bytes, so
the patched 32-bit length field wraps. -/
def c4big : ServerMessage := ⟨⟨227, 0⟩, List.replicate 4294967296 0⟩

/-! ### Claim theorems -/

/-- Claim C1, counterexample: the round-trip law fails as stated.  A
well-formed `ServerIdentMessage` with an empty tag list encodes to 32
bytes, but `ServerIdentMessage.Decode` demands at least 34 bytes, so
decoding its own encoding fails with `ShortBuffer` instead of returning
the message. -/
theorem C1_counterexample :
    ServerIdentMessage.WF ⟨⟨227, 27⟩, List.replicate 16 0, 0, 0, []⟩ ∧
    ServerIdentMessage.Decode .zero
        (ServerIdentMessage.Encode ⟨⟨227, 27⟩, List.replicate 16 0, 0, 0, []⟩)
      = (.zero, some .ShortBuffer) := by
  decide

/-- Claim C1 (amended): for every message variant, decoding the bytes of
`Encode m` into a fresh receiver returns `m` with no error, for every `m`
within the variant's declared domain — except that `ServerIdentMessage`
additionally requires its encoding to be at least 34 bytes long (its
decoder's static minimum exceeds its 32-byte empty-tag encoding). -/
theorem C1_round_trip :
    (∀ m : LoginMessage, m.WF → LoginMessage.Decode .zero m.Encode = (m, none)) ∧
    (∀ m : ServerMessage, m.WF → ServerMessage.Decode .zero m.Encode = (m, none)) ∧
    (∀ m : IDChangeMessage, m.WF → IDChangeMessage.Decode .zero m.Encode = (m, none)) ∧
    (∀ m : OfferFilesMessage, m.WF → OfferFilesMessage.Decode .zero m.Encode = (m, none)) ∧
    (∀ m : GetServerListMessage, m.WF →
      GetServerListMessage.Decode .zero m.Encode = (m, none)) ∧
    (∀ m : ServerListMessage, m.WF → ServerListMessage.Decode .zero m.Encode = (m, none)) ∧
    (∀ m : ServerStatusMessage, m.WF →
      ServerStatusMessage.Decode .zero m.Encode = (m, none)) ∧
    (∀ m : ServerIdentMessage, m.WF → 34 ≤ m.Encode.length →
      ServerIdentMessage.Decode .zero m.Encode = (m, none)) :=
  ⟨LoginMessage.decode_encode_login, ServerMessage.decode_encode_server_msg, IDChangeMessage.decode_encode_id_change,
   OfferFilesMessage.decode_encode_offer_files, GetServerListMessage.decode_encode_get_server_list,
   ServerListMessage.decode_encode_server_list, ServerStatusMessage.decode_encode_server_status,
   ServerIdentMessage.decode_encode_server_ident⟩

/-- Witness for C1: the round-trip law evaluated on one concrete
well-formed message of each variant. -/
theorem C1_round_trip_witness :
    LoginMessage.Decode .zero sampleLogin.Encode = (sampleLogin, none) ∧
    ServerMessage.Decode .zero sampleServerMsg.Encode = (sampleServerMsg, none) ∧
    IDChangeMessage.Decode .zero sampleIDChange.Encode = (sampleIDChange, none) ∧
    OfferFilesMessage.Decode .zero sampleOffer.Encode = (sampleOffer, none) ∧
    GetServerListMessage.Decode .zero sampleGetSL.Encode = (sampleGetSL, none) ∧
    ServerListMessage.Decode .zero sampleServerList.Encode = (sampleServerList, none) ∧
    ServerStatusMessage.Decode .zero sampleStatus.Encode = (sampleStatus, none) ∧
    ServerIdentMessage.Decode .zero sampleIdent.Encode = (sampleIdent, none) :=
  ⟨C1_round_trip.1 sampleLogin (by decide),
   C1_round_trip.2.1 sampleServerMsg (by decide),
   C1_round_trip.2.2.1 sampleIDChange (by decide),
   C1_round_trip.2.2.2.1 sampleOffer (by decide),
   C1_round_trip.2.2.2.2.1 sampleGetSL (by decide),
   C1_round_trip.2.2.2.2.2.1 sampleServerList (by decide),
   C1_round_trip.2.2.2.2.2.2.1 sampleStatus (by decide),
   C1_round_trip.2.2.2.2.2.2.2 sampleIdent (by decide) (by decide)⟩

/-- Claim C2, counterexample: decoding is not all-or-nothing.  On a
well-framed login buffer declaring one tag but carrying none, Decode
returns an error, yet the receiver differs from the fresh receiver it
started as — its header (and fixed fields) were already assigned. -/
theorem C2_counterexample :
    ((LoginMessage.Decode .zero c2data).2).isSome = true ∧
    (LoginMessage.Decode .zero c2data).1 ≠ LoginMessage.zero := by
  decide

/-- Claim C2 (amended): for every variant, a failure in the initial
header/length/discriminant checks leaves the receiver unchanged and is
reported (equivalently: whenever Decode returns with a changed receiver,
all initial checks had passed); and for the variants with embedded
Tag/FileEntry decodes, once the initial checks pass the returned error
is exactly the embedded loop's error — an embedded failure at any
nesting depth aborts the decode and propagates verbatim, never silently
swallowed — but fields assigned before the failure point may remain in
the receiver. -/
theorem C2_mutation_scope :
    (∀ (m0 : LoginMessage) (data : List Nat), ¬ LoginMessage.preOK data →
      (LoginMessage.Decode m0 data).1 = m0 ∧
      ((LoginMessage.Decode m0 data).2).isSome = true) ∧
    (∀ (m0 : ServerMessage) (data : List Nat), ¬ ServerMessage.preOK data →
      (ServerMessage.Decode m0 data).1 = m0 ∧
      ((ServerMessage.Decode m0 data).2).isSome = true) ∧
    (∀ (m0 : IDChangeMessage) (data : List Nat), ¬ IDChangeMessage.preOK data →
      (IDChangeMessage.Decode m0 data).1 = m0 ∧
      ((IDChangeMessage.Decode m0 data).2).isSome = true) ∧
    (∀ (m0 : OfferFilesMessage) (data : List Nat), ¬ OfferFilesMessage.preOK data →
      (OfferFilesMessage.Decode m0 data).1 = m0 ∧
      ((OfferFilesMessage.Decode m0 data).2).isSome = true) ∧
    (∀ (m0 : GetServerListMessage) (data : List Nat), ¬ GetServerListMessage.preOK data →
      (GetServerListMessage.Decode m0 data).1 = m0 ∧
      ((GetServerListMessage.Decode m0 data).2).isSome = true) ∧
    (∀ (m0 : ServerListMessage) (data : List Nat), ¬ ServerListMessage.preOK data →
      (ServerListMessage.Decode m0 data).1 = m0 ∧
      ((ServerListMessage.Decode m0 data).2).isSome = true) ∧
    (∀ (m0 : ServerStatusMessage) (data : List Nat), ¬ ServerStatusMessage.preOK data →
      (ServerStatusMessage.Decode m0 data).1 = m0 ∧
      ((ServerStatusMessage.Decode m0 data).2).isSome = true) ∧
    (∀ (m0 : ServerIdentMessage) (data : List Nat), ¬ ServerIdentMessage.preOK m0 data →
      (ServerIdentMessage.Decode m0 data).1 = m0 ∧
      ((ServerIdentMessage.Decode m0 data).2).isSome = true) ∧
    (∀ (m0 : LoginMessage) (data : List Nat), LoginMessage.preOK data →
      (LoginMessage.Decode m0 data).2
        = (readTagsInto m0.Tags (leVal (slice data 28 4)) (data.drop 32)).2.2) ∧
    (∀ (m0 : OfferFilesMessage) (data : List Nat), OfferFilesMessage.preOK data →
      (OfferFilesMessage.Decode m0 data).2
        = (readFilesInto m0.Files (leVal (slice data 6 4)) (data.drop 10)).2.2) ∧
    (∀ (m0 : ServerIdentMessage) (data : List Nat), ServerIdentMessage.preOK m0 data →
      (ServerIdentMessage.Decode m0 data).2
        = (readTagsInto m0.Tags (leVal (slice data 28 4)) (data.drop 32)).2.2) :=
  ⟨LoginMessage.pre_fail_login, ServerMessage.pre_fail_server_msg, IDChangeMessage.pre_fail_id_change,
   OfferFilesMessage.pre_fail_offer_files, GetServerListMessage.pre_fail_get_server_list, ServerListMessage.pre_fail_server_list,
   ServerStatusMessage.pre_fail_server_status, ServerIdentMessage.pre_fail_server_ident,
   LoginMessage.loop_err_login, OfferFilesMessage.loop_err_offer_files,
   ServerIdentMessage.loop_err_server_ident⟩

/-- Witness for C2: each variant's Decode on the empty buffer (which
fails the initial checks) leaves the fresh receiver unchanged and
reports an error; and on concrete well-framed buffers the returned
error is exactly the embedded tag/file loop's error. -/
theorem C2_mutation_scope_witness :
    ((LoginMessage.Decode .zero []).1 = .zero ∧
      ((LoginMessage.Decode .zero []).2).isSome = true) ∧
    ((ServerMessage.Decode .zero []).1 = .zero ∧
      ((ServerMessage.Decode .zero []).2).isSome = true) ∧
    ((IDChangeMessage.Decode .zero []).1 = .zero ∧
      ((IDChangeMessage.Decode .zero []).2).isSome = true) ∧
    ((OfferFilesMessage.Decode .zero []).1 = .zero ∧
      ((OfferFilesMessage.Decode .zero []).2).isSome = true) ∧
    ((GetServerListMessage.Decode .zero []).1 = .zero ∧
      ((GetServerListMessage.Decode .zero []).2).isSome = true) ∧
    ((ServerListMessage.Decode .zero []).1 = .zero ∧
      ((ServerListMessage.Decode .zero []).2).isSome = true) ∧
    ((ServerStatusMessage.Decode .zero []).1 = .zero ∧
      ((ServerStatusMessage.Decode .zero []).2).isSome = true) ∧
    ((ServerIdentMessage.Decode .zero []).1 = .zero ∧
      ((ServerIdentMessage.Decode .zero []).2).isSome = true) ∧
    ((LoginMessage.Decode .zero c2data).2
      = (readTagsInto LoginMessage.zero.Tags (leVal (slice c2data 28 4))
          (c2data.drop 32)).2.2) ∧
    ((OfferFilesMessage.Decode .zero [227, 5, 0, 0, 0, 21, 0, 0, 0, 0]).2
      = (readFilesInto OfferFilesMessage.zero.Files
          (leVal (slice [227, 5, 0, 0, 0, 21, 0, 0, 0, 0] 6 4))
          ([227, 5, 0, 0, 0, 21, 0, 0, 0, 0].drop 10)).2.2) ∧
    ((ServerIdentMessage.Decode .zero c2identData).2
      = (readTagsInto ServerIdentMessage.zero.Tags (leVal (slice c2identData 28 4))
          (c2identData.drop 32)).2.2) :=
  ⟨C2_mutation_scope.1 .zero [] (by decide),
   C2_mutation_scope.2.1 .zero [] (by decide),
   C2_mutation_scope.2.2.1 .zero [] (by decide),
   C2_mutation_scope.2.2.2.1 .zero [] (by decide),
   C2_mutation_scope.2.2.2.2.1 .zero [] (by decide),
   C2_mutation_scope.2.2.2.2.2.1 .zero [] (by decide),
   C2_mutation_scope.2.2.2.2.2.2.1 .zero [] (by decide),
   C2_mutation_scope.2.2.2.2.2.2.2.1 .zero [] (by decide),
   C2_mutation_scope.2.2.2.2.2.2.2.2.1 .zero c2data (by decide),
   C2_mutation_scope.2.2.2.2.2.2.2.2.2.1 .zero [227, 5, 0, 0, 0, 21, 0, 0, 0, 0]
     (by decide),
   C2_mutation_scope.2.2.2.2.2.2.2.2.2.2 .zero c2identData (by decide)⟩

/-- Claim C3: evaluation of the code at the failing input.  `c3data` is a
34-byte buffer whose own header declares a 1000-byte payload, so the
buffer is shorter than `5 + declaredPayload` and the claim demands
`ShortBuffer`; but `ServerIdentMessage.Decode` checks the stale receiver
header (`m.Header.Size`, 0 for a fresh receiver) instead of the freshly
decoded one, and succeeds. -/
theorem C3_stale_header_check :
    c3data.length < HeaderLength + leVal (slice c3data 1 4) ∧
    (ServerIdentMessage.Decode .zero c3data).2 = none := by
  decide

/-- Claim C4, counterexample: a `ServerMessage` with a 2^32-byte text
encodes to a buffer whose little-endian uint32 length field (offsets
1..5) does not equal the total encoded length minus 5 — the field holds
that quantity modulo 2^32. -/
theorem C4_counterexample :
    leVal (slice (ServerMessage.Encode c4big) 1 4) ≠ (ServerMessage.Encode c4big).length - 5 := by
  have h1 : c4big.Messages.length = 4294967296 := List.length_replicate _ _
  rw [ServerMessage.encode_eq_server_msg, frame_slice14, frame_length, leVal_u32le]
  have h2 : (u16le c4big.Messages.length ++ c4big.Messages).length = 4294967298 := by
    rw [List.length_append, u16le_length, h1]
  rw [h2]
  norm_num

/-- Claim C4 (amended): for every variant and every message value, the
little-endian uint32 stored at byte offsets 1..5 of the encoding equals
the total encoded length minus 5, provided that quantity fits in 32 bits
(in general the field holds it modulo 2^32). -/
theorem C4_header_invariant :
    (∀ m : LoginMessage, m.Encode.length - 5 < 4294967296 →
      leVal (slice m.Encode 1 4) = m.Encode.length - 5) ∧
    (∀ m : ServerMessage, m.Encode.length - 5 < 4294967296 →
      leVal (slice m.Encode 1 4) = m.Encode.length - 5) ∧
    (∀ m : IDChangeMessage, m.Encode.length - 5 < 4294967296 →
      leVal (slice m.Encode 1 4) = m.Encode.length - 5) ∧
    (∀ m : OfferFilesMessage, m.Encode.length - 5 < 4294967296 →
      leVal (slice m.Encode 1 4) = m.Encode.length - 5) ∧
    (∀ m : GetServerListMessage, m.Encode.length - 5 < 4294967296 →
      leVal (slice m.Encode 1 4) = m.Encode.length - 5) ∧
    (∀ m : ServerListMessage, m.Encode.length - 5 < 4294967296 →
      leVal (slice m.Encode 1 4) = m.Encode.length - 5) ∧
    (∀ m : ServerStatusMessage, m.Encode.length - 5 < 4294967296 →
      leVal (slice m.Encode 1 4) = m.Encode.length - 5) ∧
    (∀ m : ServerIdentMessage, m.Encode.length - 5 < 4294967296 →
      leVal (slice m.Encode 1 4) = m.Encode.length - 5) := by
  refine ⟨?_, ?_, ?_, ?_, ?_, ?_, ?_, ?_⟩
  · intro m h
    rw [LoginMessage.encode_eq_login] at h ⊢
    rw [frame_slice14, leVal_u32le]
    rw [frame_length] at h ⊢
    omega
  · intro m h
    rw [ServerMessage.encode_eq_server_msg] at h ⊢
    rw [frame_slice14, leVal_u32le]
    rw [frame_length] at h ⊢
    omega
  · intro m h
    rw [IDChangeMessage.encode_eq_id_change] at h ⊢
    rw [frame_slice14, leVal_u32le]
    rw [frame_length] at h ⊢
    omega
  · intro m h
    rw [OfferFilesMessage.encode_eq_offer_files] at h ⊢
    rw [frame_slice14, leVal_u32le]
    rw [frame_length] at h ⊢
    omega
  · intro m h
    rw [GetServerListMessage.encode_eq_get_server_list] at h ⊢
    rw [frame_slice14, leVal_u32le]
    rw [frame_length] at h ⊢
    simp only [List.length_nil] at h ⊢
  · intro m h
    rw [ServerListMessage.encode_eq_server_list] at h ⊢
    rw [frame_slice14, leVal_u32le]
    rw [frame_length] at h ⊢
    omega
  · intro m h
    rw [ServerStatusMessage.encode_eq_server_status] at h ⊢
    rw [frame_slice14, leVal_u32le]
    rw [frame_length] at h ⊢
    omega
  · intro m h
    rw [ServerIdentMessage.encode_eq_server_ident] at h ⊢
    rw [frame_slice14, leVal_u32le]
    rw [frame_length] at h ⊢
    omega

/-- Witness for C4: the header length invariant evaluated on one concrete
message of each variant. -/
theorem C4_header_invariant_witness :
    leVal (slice sampleLogin.Encode 1 4) = sampleLogin.Encode.length - 5 ∧
    leVal (slice sampleServerMsg.Encode 1 4) = sampleServerMsg.Encode.length - 5 ∧
    leVal (slice sampleIDChange.Encode 1 4) = sampleIDChange.Encode.length - 5 ∧
    leVal (slice sampleOffer.Encode 1 4) = sampleOffer.Encode.length - 5 ∧
    leVal (slice sampleGetSL.Encode 1 4) = sampleGetSL.Encode.length - 5 ∧
    leVal (slice sampleServerList.Encode 1 4) = sampleServerList.Encode.length - 5 ∧
    leVal (slice sampleStatus.Encode 1 4) = sampleStatus.Encode.length - 5 ∧
    leVal (slice sampleIdent.Encode 1 4) = sampleIdent.Encode.length - 5 :=
  ⟨C4_header_invariant.1 sampleLogin (by decide),
   C4_header_invariant.2.1 sampleServerMsg (by decide),
   C4_header_invariant.2.2.1 sampleIDChange (by decide),
   C4_header_invariant.2.2.2.1 sampleOffer (by decide),
   C4_header_invariant.2.2.2.2.1 sampleGetSL (by decide),
   C4_header_invariant.2.2.2.2.2.1 sampleServerList (by decide),
   C4_header_invariant.2.2.2.2.2.2.1 sampleStatus (by decide),
   C4_header_invariant.2.2.2.2.2.2.2 sampleIdent (by decide)⟩

/-- Claim C5: for every message variant, Decode applied to any buffer
shorter than the variant's minimum required length fails with
`ShortBuffer` and leaves the receiver unchanged (the embedding is total,
so no out-of-bounds access or panic is possible). -/
theorem C5_truncated_short_buffer :
    (∀ (m0 : LoginMessage) (data : List Nat), data.length < 32 →
      LoginMessage.Decode m0 data = (m0, some .ShortBuffer)) ∧
    (∀ (m0 : ServerMessage) (data : List Nat), data.length < 8 →
      ServerMessage.Decode m0 data = (m0, some .ShortBuffer)) ∧
    (∀ (m0 : IDChangeMessage) (data : List Nat), data.length < 14 →
      IDChangeMessage.Decode m0 data = (m0, some .ShortBuffer)) ∧
    (∀ (m0 : OfferFilesMessage) (data : List Nat), data.length < 10 →
      OfferFilesMessage.Decode m0 data = (m0, some .ShortBuffer)) ∧
    (∀ (m0 : GetServerListMessage) (data : List Nat), data.length < 6 →
      GetServerListMessage.Decode m0 data = (m0, some .ShortBuffer)) ∧
    (∀ (m0 : ServerListMessage) (data : List Nat), data.length < 7 →
      ServerListMessage.Decode m0 data = (m0, some .ShortBuffer)) ∧
    (∀ (m0 : ServerStatusMessage) (data : List Nat), data.length < 14 →
      ServerStatusMessage.Decode m0 data = (m0, some .ShortBuffer)) ∧
    (∀ (m0 : ServerIdentMessage) (data : List Nat), data.length < 34 →
      ServerIdentMessage.Decode m0 data = (m0, some .ShortBuffer)) :=
  ⟨LoginMessage.short_fail_login, ServerMessage.short_fail_server_msg, IDChangeMessage.short_fail_id_change,
   OfferFilesMessage.short_fail_offer_files, GetServerListMessage.short_fail_get_server_list,
   ServerListMessage.short_fail_server_list, ServerStatusMessage.short_fail_server_status,
   ServerIdentMessage.short_fail_server_ident⟩

/-- Witness for C5: each variant's Decode on a 5-byte buffer (a truncation
below every minimum) fails with `ShortBuffer`. -/
theorem C5_truncated_short_buffer_witness :
    LoginMessage.Decode .zero [227, 0, 0, 0, 0] = (.zero, some .ShortBuffer) ∧
    ServerMessage.Decode .zero [227, 0, 0, 0, 0] = (.zero, some .ShortBuffer) ∧
    IDChangeMessage.Decode .zero [227, 0, 0, 0, 0] = (.zero, some .ShortBuffer) ∧
    OfferFilesMessage.Decode .zero [227, 0, 0, 0, 0] = (.zero, some .ShortBuffer) ∧
    GetServerListMessage.Decode .zero [227, 0, 0, 0, 0] = (.zero, some .ShortBuffer) ∧
    ServerListMessage.Decode .zero [227, 0, 0, 0, 0] = (.zero, some .ShortBuffer) ∧
    ServerStatusMessage.Decode .zero [227, 0, 0, 0, 0] = (.zero, some .ShortBuffer) ∧
    ServerIdentMessage.Decode .zero [227, 0, 0, 0, 0] = (.zero, some .ShortBuffer) :=
  ⟨C5_truncated_short_buffer.1 .zero [227, 0, 0, 0, 0] (by decide),
   C5_truncated_short_buffer.2.1 .zero [227, 0, 0, 0, 0] (by decide),
   C5_truncated_short_buffer.2.2.1 .zero [227, 0, 0, 0, 0] (by decide),
   C5_truncated_short_buffer.2.2.2.1 .zero [227, 0, 0, 0, 0] (by decide),
   C5_truncated_short_buffer.2.2.2.2.1 .zero [227, 0, 0, 0, 0] (by decide),
   C5_truncated_short_buffer.2.2.2.2.2.1 .zero [227, 0, 0, 0, 0] (by decide),
   C5_truncated_short_buffer.2.2.2.2.2.2.1 .zero [227, 0, 0, 0, 0] (by decide),
   C5_truncated_short_buffer.2.2.2.2.2.2.2 .zero [227, 0, 0, 0, 0] (by decide)⟩

/-- Claim C6: for every message variant, Decode applied to a buffer that
meets its length checks but whose discriminant byte at offset 5 is
another valid variant's discriminant fails with `WrongMessageType`. -/
theorem C6_wrong_discriminant :
    (∀ (m0 : LoginMessage) (data : List Nat) (d : Nat),
      HeaderLength + leVal (slice data 1 4) ≤ data.length → 32 ≤ data.length →
      data.getD 5 0 = d →
      d ∈ [MessageLoginRequest, MessageServerMessage, MessageIDChange,
        MessageOfferFiles, MessageGetServerList, MessageServerList,
        MessageServerStatus, MessageServerIdent] →
      d ≠ MessageLoginRequest →
      LoginMessage.Decode m0 data = (m0, some .WrongMessageType)) ∧
    (∀ (m0 : ServerMessage) (data : List Nat) (d : Nat),
      HeaderLength + leVal (slice data 1 4) ≤ data.length → 8 ≤ data.length →
      data.getD 5 0 = d →
      d ∈ [MessageLoginRequest, MessageServerMessage, MessageIDChange,
        MessageOfferFiles, MessageGetServerList, MessageServerList,
        MessageServerStatus, MessageServerIdent] →
      d ≠ MessageServerMessage →
      ServerMessage.Decode m0 data = (m0, some .WrongMessageType)) ∧
    (∀ (m0 : IDChangeMessage) (data : List Nat) (d : Nat),
      HeaderLength + leVal (slice data 1 4) ≤ data.length → 14 ≤ data.length →
      data.getD 5 0 = d →
      d ∈ [MessageLoginRequest, MessageServerMessage, MessageIDChange,
        MessageOfferFiles, MessageGetServerList, MessageServerList,
        MessageServerStatus, MessageServerIdent] →
      d ≠ MessageIDChange →
      IDChangeMessage.Decode m0 data = (m0, some .WrongMessageType)) ∧
    (∀ (m0 : OfferFilesMessage) (data : List Nat) (d : Nat),
      HeaderLength + leVal (slice data 1 4) ≤ data.length → 10 ≤ data.length →
      data.getD 5 0 = d →
      d ∈ [MessageLoginRequest, MessageServerMessage, MessageIDChange,
        MessageOfferFiles, MessageGetServerList, MessageServerList,
        MessageServerStatus, MessageServerIdent] →
      d ≠ MessageOfferFiles →
      OfferFilesMessage.Decode m0 data = (m0, some .WrongMessageType)) ∧
    (∀ (m0 : GetServerListMessage) (data : List Nat) (d : Nat),
      HeaderLength + leVal (slice data 1 4) ≤ data.length → 6 ≤ data.length →
      data.getD 5 0 = d →
      d ∈ [MessageLoginRequest, MessageServerMessage, MessageIDChange,
        MessageOfferFiles, MessageGetServerList, MessageServerList,
        MessageServerStatus, MessageServerIdent] →
      d ≠ MessageGetServerList →
      GetServerListMessage.Decode m0 data = (m0, some .WrongMessageType)) ∧
    (∀ (m0 : ServerListMessage) (data : List Nat) (d : Nat),
      HeaderLength + leVal (slice data 1 4) ≤ data.length → 7 ≤ data.length →
      data.getD 5 0 = d →
      d ∈ [MessageLoginRequest, MessageServerMessage, MessageIDChange,
        MessageOfferFiles, MessageGetServerList, MessageServerList,
        MessageServerStatus, MessageServerIdent] →
      d ≠ MessageServerList →
      ServerListMessage.Decode m0 data = (m0, some .WrongMessageType)) ∧
    (∀ (m0 : ServerStatusMessage) (data : List Nat) (d : Nat),
      HeaderLength + leVal (slice data 1 4) ≤ data.length → 14 ≤ data.length →
      data.getD 5 0 = d →
      d ∈ [MessageLoginRequest, MessageServerMessage, MessageIDChange,
        MessageOfferFiles, MessageGetServerList, MessageServerList,
        MessageServerStatus, MessageServerIdent] →
      d ≠ MessageServerStatus →
      ServerStatusMessage.Decode m0 data = (m0, some .WrongMessageType)) ∧
    (∀ (m0 : ServerIdentMessage) (data : List Nat) (d : Nat),
      HeaderLength + m0.Header.size ≤ data.length → 34 ≤ data.length →
      data.getD 5 0 = d →
      d ∈ [MessageLoginRequest, MessageServerMessage, MessageIDChange,
        MessageOfferFiles, MessageGetServerList, MessageServerList,
        MessageServerStatus, MessageServerIdent] →
      d ≠ MessageServerIdent →
      ServerIdentMessage.Decode m0 data = (m0, some .WrongMessageType)) :=
  ⟨LoginMessage.wrongtype_fail_login, ServerMessage.wrongtype_fail_server_msg,
   IDChangeMessage.wrongtype_fail_id_change, OfferFilesMessage.wrongtype_fail_offer_files,
   GetServerListMessage.wrongtype_fail_get_server_list, ServerListMessage.wrongtype_fail_server_list,
   ServerStatusMessage.wrongtype_fail_server_status, ServerIdentMessage.wrongtype_fail_server_ident⟩

/-- Witness for C6: each variant's Decode on a well-framed buffer bearing
another variant's discriminant fails with `WrongMessageType`. -/
theorem C6_wrong_discriminant_witness :
    LoginMessage.Decode .zero ([227, 0, 0, 0, 0, 56] ++ List.replicate 26 0)
      = (.zero, some .WrongMessageType) ∧
    ServerMessage.Decode .zero [227, 0, 0, 0, 0, 1, 0, 0]
      = (.zero, some .WrongMessageType) ∧
    IDChangeMessage.Decode .zero ([227, 0, 0, 0, 0, 1] ++ List.replicate 8 0)
      = (.zero, some .WrongMessageType) ∧
    OfferFilesMessage.Decode .zero [227, 0, 0, 0, 0, 1, 0, 0, 0, 0]
      = (.zero, some .WrongMessageType) ∧
    GetServerListMessage.Decode .zero [227, 0, 0, 0, 0, 1]
      = (.zero, some .WrongMessageType) ∧
    ServerListMessage.Decode .zero [227, 0, 0, 0, 0, 1, 0]
      = (.zero, some .WrongMessageType) ∧
    ServerStatusMessage.Decode .zero ([227, 0, 0, 0, 0, 1] ++ List.replicate 8 0)
      = (.zero, some .WrongMessageType) ∧
    ServerIdentMessage.Decode .zero ([227, 0, 0, 0, 0, 1] ++ List.replicate 28 0)
      = (.zero, some .WrongMessageType) :=
  ⟨C6_wrong_discriminant.1 .zero _ 56 (by decide) (by decide) (by decide) (by decide)
      (by decide),
   C6_wrong_discriminant.2.1 .zero _ 1 (by decide) (by decide) (by decide) (by decide)
      (by decide),
   C6_wrong_discriminant.2.2.1 .zero _ 1 (by decide) (by decide) (by decide) (by decide)
      (by decide),
   C6_wrong_discriminant.2.2.2.1 .zero _ 1 (by decide) (by decide) (by decide)
      (by decide) (by decide),
   C6_wrong_discriminant.2.2.2.2.1 .zero _ 1 (by decide) (by decide) (by decide)
      (by decide) (by decide),
   C6_wrong_discriminant.2.2.2.2.2.1 .zero _ 1 (by decide) (by decide) (by decide)
      (by decide) (by decide),
   C6_wrong_discriminant.2.2.2.2.2.2.1 .zero _ 1 (by decide) (by decide) (by decide)
      (by decide) (by decide),
   C6_wrong_discriminant.2.2.2.2.2.2.2 .zero _ 1 (by decide) (by decide) (by decide)
      (by decide) (by decide)⟩

/-- Claim C7: encoding a `ServerListMessage` with 3 entries, the middle
one a nil slot, yields after the 5-byte header and the discriminant a
count byte of 3 followed by exactly 18 bytes, with the nil slot rendered
as 4 zero IP bytes and 2 zero port bytes. -/
theorem C7_server_list_null_slot (a1 a2 : TCPAddr) (hd : Header)
    (h1 : a1.ip.length = 4) (h2 : a2.ip.length = 4) :
    (ServerListMessage.Encode ⟨hd, [some a1, none, some a2]⟩).drop 5
      = MessageServerList :: 3 ::
          (a1.ip ++ u16le a1.port ++ [0, 0, 0, 0, 0, 0] ++ a2.ip ++ u16le a2.port) ∧
    (a1.ip ++ u16le a1.port ++ [0, 0, 0, 0, 0, 0] ++ a2.ip ++ u16le a2.port).length = 18 := by
  constructor
  · rw [ServerListMessage.encode_eq_server_list, frame_drop5]
    norm_num [addrBytes, u16le, List.append_assoc]
  · simp [List.length_append, h1, h2, u16le]

/-- Witness for C7: the null-slot rendering evaluated at two concrete
addresses. -/
theorem C7_server_list_null_slot_witness :
    (ServerListMessage.Encode ⟨⟨227, 20⟩, [some ⟨[1, 2, 3, 4], 4661⟩, none,
        some ⟨[5, 6, 7, 8], 4242⟩]⟩).drop 5
      = MessageServerList :: 3 ::
          ([1, 2, 3, 4] ++ u16le 4661 ++ [0, 0, 0, 0, 0, 0] ++ [5, 6, 7, 8] ++
            u16le 4242) ∧
    ([1, 2, 3, 4] ++ u16le 4661 ++ [0, 0, 0, 0, 0, 0] ++ [5, 6, 7, 8] ++
      u16le 4242).length = 18 :=
  C7_server_list_null_slot ⟨[1, 2, 3, 4], 4661⟩ ⟨[5, 6, 7, 8], 4242⟩ ⟨227, 20⟩
    (by decide) (by decide)

/-- Claim C8: encoding `{clientID := 0x01020304, bitmap := 0x1}` and
decoding yields the identical struct, and for every 32-bit bitmap —
including values with reserved bits set — encode-then-decode returns the
bitmap unchanged: reserved bits are preserved, never rejected. -/
theorem C8_idchange_round_trip :
    (IDChangeMessage.Decode .zero (IDChangeMessage.Encode ⟨⟨227, 9⟩, 16909060, 1⟩)
      = (⟨⟨227, 9⟩, 16909060, 1⟩, none)) ∧
    ∀ bm : Nat, bm < 4294967296 →
      IDChangeMessage.Decode .zero (IDChangeMessage.Encode ⟨⟨227, 9⟩, 16909060, bm⟩)
        = (⟨⟨227, 9⟩, 16909060, bm⟩, none) := by
  have hgen : ∀ bm : Nat, bm < 4294967296 →
      IDChangeMessage.Decode .zero (IDChangeMessage.Encode ⟨⟨227, 9⟩, 16909060, bm⟩)
        = (⟨⟨227, 9⟩, 16909060, bm⟩, none) := by
    intro bm hbm
    apply IDChangeMessage.decode_encode_id_change
    refine ⟨by norm_num, hbm, ?_⟩
    rw [IDChangeMessage.encode_eq_id_change, frame_length]
    have hl : (u32le 16909060 ++ u32le bm).length = 8 := by
      rw [List.length_append, u32le_length, u32le_length]
    rw [hl]
    rfl
  exact ⟨hgen 1 (by norm_num), hgen⟩

/-- Witness for C8: the reserved-bit law applied at bitmap 2 (reserved
bit 1 set). -/
theorem C8_idchange_round_trip_witness :
    IDChangeMessage.Decode .zero (IDChangeMessage.Encode ⟨⟨227, 9⟩, 16909060, 2⟩)
      = (⟨⟨227, 9⟩, 16909060, 2⟩, none) :=
  C8_idchange_round_trip.2 2 (by decide)

/-- Claim C9: an `OfferFilesMessage` with an empty file list encodes to
exactly the 5-byte header (with patched payload length 5), the
discriminant byte and a 4-byte zero count; decoding that buffer succeeds
and yields an empty file list. -/
theorem C9_offer_files_empty (p s : Nat) :
    OfferFilesMessage.Encode ⟨⟨p, s⟩, []⟩
      = p :: (u32le 5 ++ MessageOfferFiles :: u32le 0) ∧
    OfferFilesMessage.Decode .zero (OfferFilesMessage.Encode ⟨⟨p, s⟩, []⟩)
      = (⟨⟨p, 5⟩, []⟩, none) := by
  have henc : ∀ q : Nat, OfferFilesMessage.Encode ⟨⟨p, q⟩, []⟩
      = p :: (u32le 5 ++ MessageOfferFiles :: u32le 0) := by
    intro q
    rw [OfferFilesMessage.encode_eq_offer_files]
    norm_num [u32le]
  refine ⟨henc s, ?_⟩
  rw [henc s, ← henc 5]
  apply OfferFilesMessage.decode_encode_offer_files
  refine ⟨by norm_num, by simp, ?_, ?_⟩
  · rw [henc 5]
    rfl
  · rw [henc 5]
    simp [u32le, HeaderLength]

/-- Claim C10: `ServerMessage.Encode` stores the 16-bit text-length
prefix as `len(Messages) mod 2^16`; decoding an encoded buffer always
succeeds and reads back exactly the prefixed number of bytes (the text
truncated to its length mod 2^16); the round trip returns the message
exactly on the declared domain (`len(Messages) < 65536`), and a 65536-byte
text decodes back to an empty text. -/
theorem C10_server_message_u16 :
    (∀ m : ServerMessage, leVal (slice m.Encode 6 2) = m.Messages.length % 65536) ∧
    (∀ m : ServerMessage,
      ((ServerMessage.Decode .zero m.Encode).1).Messages
        = m.Messages.take (m.Messages.length % 65536) ∧
      (ServerMessage.Decode .zero m.Encode).2 = none) ∧
    (∀ m : ServerMessage, m.WF → ServerMessage.Decode .zero m.Encode = (m, none)) ∧
    ((ServerMessage.Decode .zero
        (ServerMessage.Encode ⟨⟨227, 3⟩, List.replicate 65536 104⟩)).1).Messages = [] := by
  refine ⟨?_, fun m => ServerMessage.decode_encode_take m,
    fun m h => ServerMessage.decode_encode_server_msg m h, ?_⟩
  · intro m
    rw [ServerMessage.encode_eq_server_msg, frame_slice6, take_len_app _ _ _ (u16le_length _),
      leVal_u16le]
  · have h := (ServerMessage.decode_encode_take ⟨⟨227, 3⟩, List.replicate 65536 104⟩).1
    rw [h]
    norm_num [List.length_replicate]

/-- Witness for C10: the exact round trip applied at a small concrete
server message. -/
theorem C10_server_message_u16_witness :
    ServerMessage.Decode .zero sampleServerMsg.Encode = (sampleServerMsg, none) :=
  C10_server_message_u16.2.2.1 sampleServerMsg (by decide)

end ed2k
